import Mathlib

/-!
Shallow embedding of the dicomnet DICOM networking library (Go) in Lean 4,
together with theorems checking the natural-language specification against
the code.  Go byte slices are modelled as `List Nat` (each entry one byte),
Go strings — which in this code base are byte strings — likewise as
`List Nat`, machine integers as `Nat` with explicit `% 2 ^ w` where the Go
code truncates, and fallible Go functions as `Except String _` /
`Option _`.  Go maps that the code iterates in sorted key order are
modelled as association lists kept sorted by key.
-/

namespace Dicomnet

/-- Bytes of an ASCII string literal, used to transcribe the Go string
constants of the repository. -/
def bstr (s : String) : List Nat := s.data.map Char.toNat

/-- Little-endian 16-bit encoding (Go `binary.LittleEndian.PutUint16`). -/
def u16le (n : Nat) : List Nat := [n % 256, n / 256 % 256]

/-- Little-endian 32-bit encoding (Go `binary.LittleEndian.PutUint32`). -/
def u32le (n : Nat) : List Nat :=
  [n % 256, n / 256 % 256, n / 65536 % 256, n / 16777216 % 256]

/-- Big-endian 16-bit encoding (Go `binary.BigEndian.PutUint16`). -/
def u16be (n : Nat) : List Nat := [n / 256 % 256, n % 256]

/-- Big-endian 32-bit encoding (Go `binary.BigEndian.PutUint32`). -/
def u32be (n : Nat) : List Nat :=
  [n / 16777216 % 256, n / 65536 % 256, n / 256 % 256, n % 256]

/-- Little-endian 16-bit read of the first two bytes
(Go `binary.LittleEndian.Uint16`). -/
def readU16le (l : List Nat) : Nat := l.getD 0 0 + 256 * l.getD 1 0

/-- Little-endian 32-bit read of the first four bytes
(Go `binary.LittleEndian.Uint32`). -/
def readU32le (l : List Nat) : Nat :=
  l.getD 0 0 + 256 * l.getD 1 0 + 65536 * l.getD 2 0 + 16777216 * l.getD 3 0

/-- Big-endian 16-bit read of the first two bytes
(Go `binary.BigEndian.Uint16`). -/
def readU16be (l : List Nat) : Nat := 256 * l.getD 0 0 + l.getD 1 0

/-- Big-endian 32-bit read of the first four bytes
(Go `binary.BigEndian.Uint32`). -/
def readU32be (l : List Nat) : Nat :=
  16777216 * l.getD 0 0 + 65536 * l.getD 1 0 + 256 * l.getD 2 0 + l.getD 3 0

/-- Trailing-byte trim: removes from the right every byte in `cut`
(Go `strings.TrimRight` on a byte set). -/
def trimRightBytes (cut : List Nat) (l : List Nat) : List Nat :=
  ((l.reverse.dropWhile (fun b => decide (b ∈ cut))).reverse)

/-- ASCII whitespace bytes recognised by Go `strings.TrimSpace` on
ASCII-only input (the inputs of interest are ASCII byte strings). -/
def isSpaceByte (b : Nat) : Bool := b = 9 || b = 10 || b = 11 || b = 12 || b = 13 || b = 32

/-- Go `strings.TrimSpace` restricted to ASCII byte strings: drop leading
and trailing whitespace bytes. -/
def trimSpaceBytes (l : List Nat) : List Nat :=
  ((l.dropWhile isSpaceByte).reverse.dropWhile isSpaceByte).reverse

/-- Truncate a byte string at its first NUL byte, as the Go idiom
`value[:strings.IndexByte(value, 0)]` does (identity when no NUL). -/
def truncAtNul (l : List Nat) : List Nat := l.takeWhile (fun b => decide (b ≠ 0))

/- ### UID constants (`types` package) -/

def ImplicitVRLittleEndian : List Nat := bstr "1.2.840.10008.1.2"
def ExplicitVRLittleEndian : List Nat := bstr "1.2.840.10008.1.2.1"
def VerificationSOPClass : List Nat := bstr "1.2.840.10008.1.1"
def ApplicationContextUID : List Nat := bstr "1.2.840.10008.3.1.1.1"

/-- SOP Class UIDs whose `sopClassRegistry` entry has category `"Storage"`
(`types.IsStorageSOPClass` returns true exactly on these). -/
def storageSOPClassUIDs : List (List Nat) :=
  [ bstr "1.2.840.10008.5.1.4.1.1.1"      -- Computed Radiography Image Storage
  , bstr "1.2.840.10008.5.1.4.1.1.2"      -- CT Image Storage
  , bstr "1.2.840.10008.5.1.4.1.1.2.1"    -- Enhanced CT Image Storage
  , bstr "1.2.840.10008.5.1.4.1.1.4"      -- MR Image Storage
  , bstr "1.2.840.10008.5.1.4.1.1.4.1"    -- Enhanced MR Image Storage
  , bstr "1.2.840.10008.5.1.4.1.1.6.1"    -- Ultrasound Image Storage
  , bstr "1.2.840.10008.5.1.4.1.1.3.1"    -- Ultrasound Multi-frame Image Storage
  , bstr "1.2.840.10008.5.1.4.1.1.7"      -- Secondary Capture Image Storage
  , bstr "1.2.840.10008.5.1.4.1.1.20"     -- Nuclear Medicine Image Storage
  , bstr "1.2.840.10008.5.1.4.1.1.128"    -- PET Image Storage
  , bstr "1.2.840.10008.5.1.4.1.1.130"    -- Enhanced PET Image Storage
  , bstr "1.2.840.10008.5.1.4.1.1.481.1"  -- RT Image Storage
  , bstr "1.2.840.10008.5.1.4.1.1.481.2"  -- RT Dose Storage
  , bstr "1.2.840.10008.5.1.4.1.1.481.3"  -- RT Structure Set Storage
  , bstr "1.2.840.10008.5.1.4.1.1.481.5"  -- RT Plan Storage
  , bstr "1.2.840.10008.5.1.4.1.1.104.1"  -- Encapsulated PDF Storage
  , bstr "1.2.840.10008.5.1.4.1.1.104.2"  -- Encapsulated CDA Storage
  ]

/-- `types.IsStorageSOPClass`: category lookup in `sopClassRegistry`. -/
def IsStorageSOPClass (uid : List Nat) : Bool := storageSOPClassUIDs.contains uid

/-- The `pdu` package's `supportedAbstractSyntaxes` map keys. -/
def supportedAbstractSyntaxKeys : List (List Nat) :=
  [ VerificationSOPClass
  , bstr "1.2.840.10008.5.1.4.1.2.1.1"  -- Patient Root Q/R - FIND
  , bstr "1.2.840.10008.5.1.4.1.2.2.1"  -- Study Root Q/R - FIND
  , bstr "1.2.840.10008.5.1.4.1.2.3.1"  -- Patient/Study Only Q/R - FIND
  , bstr "1.2.840.10008.5.1.4.1.2.1.2"  -- Patient Root Q/R - MOVE
  , bstr "1.2.840.10008.5.1.4.1.2.2.2"  -- Study Root Q/R - MOVE
  , bstr "1.2.840.10008.5.1.4.1.2.3.2"  -- Patient/Study Only Q/R - MOVE
  , bstr "1.2.840.10008.5.1.4.1.2.1.3"  -- Patient Root Q/R - GET
  , bstr "1.2.840.10008.5.1.4.1.2.2.3"  -- Study Root Q/R - GET
  , bstr "1.2.840.10008.5.1.4.1.2.3.3"  -- Patient/Study Only Q/R - GET
  ]

/-- `pdu.supportsAbstractSyntax`: membership in the configured map or a
storage SOP class. -/
def supportsAbstractSyntax (uid : List Nat) : Bool :=
  supportedAbstractSyntaxKeys.contains uid || IsStorageSOPClass uid

/-- `pdu.supportsTransferSyntax`: the two uncompressed little-endian
syntaxes. -/
def supportsTransferSyntax (uid : List Nat) : Bool :=
  uid = ImplicitVRLittleEndian || uid = ExplicitVRLittleEndian

/-- `pdu.normalizeUID`: trim trailing NUL and space bytes. -/
def normalizeUID (raw : List Nat) : List Nat := trimRightBytes [0, 32] raw

/-- `pdu.PresentationContext`. -/
structure PresentationContext where
  id : Nat
  result : Nat
  abstractSyntax : List Nat
  transferSyntax : List Nat
deriving DecidableEq, Repr

def presentationResultAcceptance : Nat := 0x00
def presentationResultRejectAbstractSyntax : Nat := 0x03
def presentationResultRejectTransferSyntax : Nat := 0x04

/-- The negotiation core of `pdu.parsePresentationContext` (its lines after
sub-item extraction): given the extracted abstract syntax and the proposed
transfer syntaxes in order received, produce `(result, selectedTransfer)`.
The scan `for _, ts := range transferSyntaxes` with `break` on the first
supported entry is `List.find?`; the final validation forcing rejection of
an acceptance without transfer syntax is included. -/
def negotiateContext (abstractSyntax : List Nat) (transferSyntaxes : List (List Nat)) :
    Nat × List Nat :=
  let scan :=
    if supportsAbstractSyntax abstractSyntax then
      match transferSyntaxes.find? supportsTransferSyntax with
      | some ts => (presentationResultAcceptance, ts)
      | none => (presentationResultRejectTransferSyntax, ([] : List Nat))
    else (presentationResultRejectAbstractSyntax, ([] : List Nat))
  if scan.1 = presentationResultAcceptance && scan.2 = ([] : List Nat) then
    (presentationResultRejectTransferSyntax, scan.2)
  else scan

/-- The sub-item loop of `pdu.parsePresentationContext`: starting after the
4 fixed bytes, read `[code, reserved, len16be, value]` sub-items, keeping
the last Abstract Syntax (0x30) and accumulating Transfer Syntaxes (0x40).
Fails when a sub-item exceeds the remaining data. -/
def parsePCSubItemsLoop : Nat → List Nat → List Nat → List (List Nat) →
    Except String (List Nat × List (List Nat))
  | 0, _, abs, tss => .ok (abs, tss)
  | fuel + 1, rest, abs, tss =>
    if rest.length < 4 then .ok (abs, tss)
    else
      let subItemType := rest.getD 0 0
      let subItemLength := readU16be (rest.drop 2)
      let value := (rest.drop 4).take subItemLength
      if rest.length < 4 + subItemLength then
        .error "presentation context sub-item exceeds length"
      else
        let next := rest.drop (4 + subItemLength)
        if subItemType = 0x30 then parsePCSubItemsLoop fuel next (normalizeUID value) tss
        else if subItemType = 0x40 then
          parsePCSubItemsLoop fuel next abs (tss ++ [normalizeUID value])
        else parsePCSubItemsLoop fuel next abs tss

/-- Each iteration consumes at least four bytes, so `rest.length + 1` fuel
always reaches the loop's own exit condition first. -/
def parsePCSubItems (rest : List Nat) (abs : List Nat) (tss : List (List Nat)) :
    Except String (List Nat × List (List Nat)) :=
  parsePCSubItemsLoop (rest.length + 1) rest abs tss

/-- `pdu.parsePresentationContext`: parse one Presentation Context item body
and negotiate its result. -/
def parsePresentationContext (data : List Nat) : Except String PresentationContext := do
  if data.length < 4 then throw "presentation context too short"
  else
    let ctxID := data.getD 0 0
    let (abs, tss) ← parsePCSubItems (data.drop 4) [] []
    if abs = [] then throw "presentation context missing abstract syntax"
    else
      let (result, selected) := negotiateContext abs tss
      pure { id := ctxID, result := result, abstractSyntax := abs, transferSyntax := selected }

/- ### Association context and A-ASSOCIATE handling (`pdu` package) -/

/-- `pdu.AssociationContext`.  The Go `map[byte]*PresentationContext` is
modelled as an association list kept sorted by context ID (the only
iteration over it, in `createAssociateAccept`, sorts the IDs first). -/
structure AssociationContext where
  calledAETitle : List Nat
  callingAETitle : List Nat
  maxPDULength : Nat
  presentationCtxs : List (Nat × PresentationContext)
deriving DecidableEq, Repr

/-- Map write `ctxs[id] = ctx`: sorted insert replacing an existing entry. -/
def insertCtx (m : List (Nat × PresentationContext)) (k : Nat) (v : PresentationContext) :
    List (Nat × PresentationContext) :=
  match m with
  | [] => [(k, v)]
  | (k', v') :: rest =>
      if k < k' then (k, v) :: (k', v') :: rest
      else if k = k' then (k, v) :: rest
      else (k', v') :: insertCtx rest k v

/-- Map read `ctxs[id]`. -/
def lookupCtx (m : List (Nat × PresentationContext)) (k : Nat) : Option PresentationContext :=
  match m with
  | [] => none
  | (k', v') :: rest => if k = k' then some v' else lookupCtx rest k

/-- `pdu.Layer.addDefaultPresentationContexts`: the seven built-in accepted
contexts (IDs 1,3,5,7,9,11,13), each with Implicit VR Little Endian. -/
def defaultPresentationCtxs : List (Nat × PresentationContext) :=
  [ (1,  { id := 1,  result := 0, abstractSyntax := bstr "1.2.840.10008.1.1",
           transferSyntax := bstr "1.2.840.10008.1.2" })
  , (3,  { id := 3,  result := 0, abstractSyntax := bstr "1.2.840.10008.5.1.4.1.2.1.1",
           transferSyntax := bstr "1.2.840.10008.1.2" })
  , (5,  { id := 5,  result := 0, abstractSyntax := bstr "1.2.840.10008.5.1.4.1.2.2.1",
           transferSyntax := bstr "1.2.840.10008.1.2" })
  , (7,  { id := 7,  result := 0, abstractSyntax := bstr "1.2.840.10008.5.1.4.1.2.3.1",
           transferSyntax := bstr "1.2.840.10008.1.2" })
  , (9,  { id := 9,  result := 0, abstractSyntax := bstr "1.2.840.10008.5.1.4.1.2.1.2",
           transferSyntax := bstr "1.2.840.10008.1.2" })
  , (11, { id := 11, result := 0, abstractSyntax := bstr "1.2.840.10008.5.1.4.1.2.2.2",
           transferSyntax := bstr "1.2.840.10008.1.2" })
  , (13, { id := 13, result := 0, abstractSyntax := bstr "1.2.840.10008.5.1.4.1.2.3.2",
           transferSyntax := bstr "1.2.840.10008.1.2" }) ]

/-- `pdu.parseUserInformation`: scan User Information sub-items for the
Maximum Length sub-item (0x51 with a 4-byte value). -/
def parseUserInformationLoop : Nat → List Nat → Nat → Except String Nat
  | 0, _, acc => .ok acc
  | fuel + 1, data, acc =>
    if data.length < 4 then .ok acc
    else
      let subItemType := data.getD 0 0
      let subItemLength := readU16be (data.drop 2)
      if data.length < 4 + subItemLength then .error "user information sub-item exceeds length"
      else
        let value := (data.drop 4).take subItemLength
        let acc' := if subItemType = 0x51 && subItemLength = 4 then readU32be value else acc
        parseUserInformationLoop fuel (data.drop (4 + subItemLength)) acc'

def parseUserInformation (data : List Nat) (acc : Nat) : Except String Nat :=
  parseUserInformationLoop (data.length + 1) data acc

/-- The variable-item loop of `pdu.Layer.parseAssociationRequest` (from byte
offset 68): on each item dispatch on the type code, inserting successfully
parsed presentation contexts (failures are only logged) and applying a
positive Maximum Length from User Information.  An item overrunning the PDU
aborts with an error, keeping the updates made so far. -/
def parseAssocItemsLoop : Nat → List Nat → AssociationContext →
    AssociationContext × Option String
  | 0, _, ctx => (ctx, none)
  | fuel + 1, rest, ctx =>
    if rest.length < 4 then (ctx, none)
    else
      let itemType := rest.getD 0 0
      let itemLength := readU16be (rest.drop 2)
      if rest.length < 4 + itemLength then (ctx, some "association item exceeds PDU length")
      else
        let itemData := (rest.drop 4).take itemLength
        let ctx' :=
          if itemType = 0x20 then
            match parsePresentationContext itemData with
            | .ok pc => { ctx with presentationCtxs := insertCtx ctx.presentationCtxs pc.id pc }
            | .error _ => ctx
          else if itemType = 0x50 then
            match parseUserInformation itemData 0 with
            | .ok maxLen => if maxLen > 0 then { ctx with maxPDULength := maxLen } else ctx
            | .error _ => ctx
          else ctx
        parseAssocItemsLoop fuel (rest.drop (4 + itemLength)) ctx'

def parseAssocItems (rest : List Nat) (ctx : AssociationContext) :
    AssociationContext × Option String :=
  parseAssocItemsLoop (rest.length + 1) rest ctx

/-- `pdu.Layer.parseAssociationRequest`: too-short bodies fail before
touching the context; otherwise the AE titles are extracted (truncated at
the first NUL, then space-trimmed), the presentation-context map is reset,
and the variable items are scanned from offset 68. -/
def parseAssociationRequest (ctx : AssociationContext) (data : List Nat) :
    AssociationContext × Option String :=
  if data.length < 68 then (ctx, some "association request too short")
  else
    let calledAE := trimSpaceBytes (truncAtNul ((data.drop 4).take 16))
    let callingAE := trimSpaceBytes (truncAtNul ((data.drop 20).take 16))
    let ctx' : AssociationContext :=
      { calledAETitle := calledAE, callingAETitle := callingAE,
        maxPDULength := ctx.maxPDULength, presentationCtxs := [] }
    parseAssocItems (data.drop 68) ctx'

/-- AE title field of the A-ASSOCIATE-AC fixed header: truncate to 16 bytes
then space-pad to 16 (`fmt.Sprintf("%-16s", ae)`). -/
def aeField (s : List Nat) : List Nat :=
  let t := s.take 16
  t ++ List.replicate (16 - t.length) 32

/-- The bytes contributed to the A-ASSOCIATE-AC by one presentation context
in `pdu.Layer.createAssociateAccept`: rejected contexts are skipped
entirely (compatibility workaround); an accepted context with an empty
transfer syntax is demoted to result 0x04 with no sub-item; an accepted
context with a transfer syntax carries exactly one Transfer Syntax
sub-item. -/
def presItemFor (ctx : PresentationContext) : List Nat :=
  if ctx.result ≠ presentationResultAcceptance then []
  else if ctx.transferSyntax = [] then
    [0x21, 0x00] ++ u16be 4 ++ [ctx.id, presentationResultRejectTransferSyntax, 0x00, 0x00]
  else
    let transferSyntaxItem :=
      [0x40, 0x00] ++ u16be ctx.transferSyntax.length ++ ctx.transferSyntax
    [0x21, 0x00] ++ u16be (4 + transferSyntaxItem.length) ++
      [ctx.id, ctx.result, 0x00, 0x00] ++ transferSyntaxItem

/-- The fixed User Information item emitted by `createAssociateAccept`. -/
def acUserInfoItem : List Nat :=
  let maxPDUItem := [0x51, 0x00, 0x00, 0x04] ++ u32be 16384
  let implClassUID := bstr "1.2.3.4.5.6.7.8.9"
  let implClassItem := [0x52, 0x00] ++ u16be implClassUID.length ++ implClassUID
  let implVersionName := bstr "DIMSE_GO_1.0"
  let implVersionItem := [0x55, 0x00] ++ u16be implVersionName.length ++ implVersionName
  let userInfoData := maxPDUItem ++ implClassItem ++ implVersionItem
  [0x50, 0x00] ++ u16be userInfoData.length ++ userInfoData

/-- `pdu.Layer.createAssociateAccept`: the full A-ASSOCIATE-AC PDU bytes.
The Go code sorts the map's context IDs before emission; on the sorted
association-list model that iteration is the list order. -/
def createAssociateAccept (ctx : AssociationContext) : List Nat :=
  let fixedFields := u16be 0x0001 ++ [0x00, 0x00] ++ aeField ctx.calledAETitle ++
    aeField ctx.callingAETitle ++ List.replicate 32 0
  let appContextItem := [0x10, 0x00] ++ u16be ApplicationContextUID.length ++ ApplicationContextUID
  let allPresContextItems := (ctx.presentationCtxs.map (fun p => presItemFor p.2)).flatten
  let pduData := fixedFields ++ appContextItem ++ allPresContextItems ++ acUserInfoItem
  [0x02, 0x00] ++ u32be pduData.length ++ pduData

/-- `pdu.PDU`. -/
structure PDU where
  pduType : Nat
  data : List Nat
deriving DecidableEq, Repr

/-- `pdu.Layer.handleAssociateRequest`: initialise the association context
with defaults, parse the request body (parse failures only fall back), add
the seven default contexts when none were parsed, and reply with an
A-ASSOCIATE-AC.  Returns the resulting association context and the bytes
written to the connection. -/
def handleAssociateRequest (serverAETitle : List Nat) (pdu : PDU) :
    AssociationContext × List Nat :=
  let init : AssociationContext :=
    { calledAETitle := serverAETitle, callingAETitle := bstr "UNKNOWN",
      maxPDULength := 16384, presentationCtxs := [] }
  let parsed := (parseAssociationRequest init pdu.data).1
  let ctx :=
    if parsed.presentationCtxs = [] then
      { parsed with presentationCtxs := defaultPresentationCtxs }
    else parsed
  (ctx, createAssociateAccept ctx)

/-- `pdu.Layer.handleAssociationPhase`: the first PDU must be an
A-ASSOCIATE-RQ (type 0x01); any other type returns an error without
writing anything (the connection is then closed by `HandleConnection`'s
deferred `Close`).  On success the A-ASSOCIATE-AC is written.  The result
pairs the outcome with the list of PDUs written to the connection. -/
def handleAssociationPhase (serverAETitle : List Nat) (pdu : PDU) :
    Except String AssociationContext × List (List Nat) :=
  if pdu.pduType = 0x01 then
    let (ctx, ac) := handleAssociateRequest serverAETitle pdu
    (.ok ctx, [ac])
  else (.error "expected A-ASSOCIATE-RQ, got other PDU type", [])

/- ### P-DATA-TF fragmentation (`dimse.SendPDataTF`) and the PDV
extraction of `dimse.ReceiveDIMSEMessage` -/

/-- The loop body of `dimse.SendPDataTF`, with explicit fuel: each
iteration takes a chunk of at most `maxPDULength - 12` bytes and emits one
P-DATA-TF PDU holding a single PDV `[len32be, pcid, mch, chunk]`.  The Go
loop diverges when `maxPDULength - 12 ≤ 0` and data remains (chunk size 0);
exhausted fuel returns `none` in that case.  `data.length` fuel suffices
whenever each chunk is non-empty. -/
def sendPDataTFLoop (presContextID maxPDULength : Nat) (isCommand isLast : Bool) :
    Nat → List Nat → Option (List (List Nat))
  | _, [] => some []
  | 0, _ :: _ => none
  | fuel + 1, data@(_ :: _) =>
      let maxPDVData := maxPDULength - 12
      let lastFragment := decide (data.length ≤ maxPDVData)
      let chunkSize := if lastFragment then data.length else maxPDVData
      let controlHeader := (if isCommand then 1 else 0) + (if lastFragment && isLast then 2 else 0)
      let pdv := u32be (chunkSize + 2) ++ [presContextID, controlHeader] ++ data.take chunkSize
      let pduBytes := [0x04, 0x00] ++ u32be pdv.length ++ pdv
      (sendPDataTFLoop presContextID maxPDULength isCommand isLast fuel (data.drop chunkSize)).map
        (pduBytes :: ·)

/-- `dimse.SendPDataTF`: fragment `data` into P-DATA-TF PDUs written in
order to the connection. -/
def SendPDataTF (presContextID maxPDULength : Nat) (data : List Nat) (isCommand isLast : Bool) :
    Option (List (List Nat)) :=
  sendPDataTFLoop presContextID maxPDULength isCommand isLast data.length data

/-- One received PDV: presentation context ID, message control header and
fragment payload. -/
structure Pdv where
  pcid : Nat
  mch : Nat
  payload : List Nat
deriving DecidableEq, Repr

/-- The inner PDV loop of `dimse.ReceiveDIMSEMessage` over one P-DATA-TF
payload: read `[len32be, pcid, mch, value]` entries; a short or overrunning
PDV is an error (a declared PDV length below 2 would make the Go slice
expression panic — modelled as an error). -/
def extractPDVsLoop : Nat → List Nat → Except String (List Pdv)
  | 0, _ => .ok []
  | fuel + 1, payload =>
    if payload = [] then .ok []
    else if payload.length < 6 then .error "malformed PDV encountered"
    else
      let pdvLength := readU32be payload
      if payload.length < 4 + pdvLength then .error "PDV length exceeds PDU payload"
      else if pdvLength < 2 then .error "PDV slice out of range"
      else do
        let rest ← extractPDVsLoop fuel (payload.drop (4 + pdvLength))
        pure ({ pcid := payload.getD 4 0, mch := payload.getD 5 0,
                payload := (payload.drop 6).take (pdvLength - 2) } :: rest)

def extractPDVs (payload : List Nat) : Except String (List Pdv) :=
  extractPDVsLoop (payload.length + 1) payload

/-- The PDV extraction performed by `dimse.ReceiveDIMSEMessage` over a byte
stream of P-DATA-TF PDUs: read the 6-byte PDU header, require type 0x04,
extract the PDVs of the payload and continue with the next PDU.  (The Go
function additionally decodes commands and stops once a message is
complete; this function captures its treatment of the byte stream.) -/
def receivePDataPDVsLoop : Nat → List Nat → Except String (List Pdv)
  | 0, _ => .ok []
  | fuel + 1, stream =>
    if stream = [] then .ok []
    else if stream.length < 6 then .error "failed to read PDU header"
    else
      let pduType := stream.getD 0 0
      let pduLength := readU32be (stream.drop 2)
      if pduType ≠ 0x04 then .error "unexpected PDU type"
      else if stream.length < 6 + pduLength then .error "failed to read PDU data"
      else do
        let these ← extractPDVs ((stream.drop 6).take pduLength)
        let rest ← receivePDataPDVsLoop fuel (stream.drop (6 + pduLength))
        pure (these ++ rest)

def receivePDataPDVs (stream : List Nat) : Except String (List Pdv) :=
  receivePDataPDVsLoop (stream.length + 1) stream

/-- `pdu.Layer.SendDIMSEResponseWithDataset`: the SCP response path.  The
command bytes are sent as one P-DATA-TF PDU holding a single PDV with
message control header 0x03, followed — when dataset bytes are present —
by one P-DATA-TF PDU holding a single PDV with header 0x02.  No
fragmentation is performed.  Returns the PDUs written in order. -/
def SendDIMSEResponseWithDataset (presContextID : Nat) (commandData datasetData : List Nat) :
    List (List Nat) :=
  let commandPDVData := [presContextID, 0x03] ++ commandData
  let commandResponse :=
    [0x04, 0x00] ++ u32be (4 + commandPDVData.length) ++ u32be commandPDVData.length ++
      commandPDVData
  if datasetData.length > 0 then
    let datasetPDVData := [presContextID, 0x02] ++ datasetData
    let datasetResponse :=
      [0x04, 0x00] ++ u32be (4 + datasetPDVData.length) ++ u32be datasetPDVData.length ++
        datasetPDVData
    [commandResponse, datasetResponse]
  else [commandResponse]

/- ### DIMSE messages and the command-set codec
(`types.Message`, `dimse.EncodeCommand`, `dimse.DecodeCommand`) -/

/-- `types.Message` (the full struct with sub-operation counters and the
in-memory `TransferSyntaxUID` field).  Go strings are byte strings,
modelled as `List Nat`; the optional `*uint16` counters as `Option Nat`. -/
structure DMessage where
  commandField : Nat := 0
  messageID : Nat := 0
  affectedSOPClassUID : List Nat := []
  affectedSOPInstanceUID : List Nat := []
  requestedSOPClassUID : List Nat := []
  priority : Nat := 0
  commandDataSetType : Nat := 0
  status : Nat := 0
  messageIDBeingRespondedTo : Nat := 0
  moveDestination : List Nat := []
  transferSyntaxUID : List Nat := []
  numberOfRemainingSuboperations : Option Nat := none
  numberOfCompletedSuboperations : Option Nat := none
  numberOfFailedSuboperations : Option Nat := none
  numberOfWarningSuboperations : Option Nat := none
deriving DecidableEq, Repr

/-- `dimse.AppendImplicitElement`: tag (little-endian group, element),
32-bit little-endian length, then the value bytes. -/
def AppendImplicitElement (buf : List Nat) (group element : Nat) (value : List Nat) :
    List Nat :=
  buf ++ u16le group ++ u16le element ++ u32le value.length ++ value

/-- Pad a byte string to even length with the given pad byte. -/
def padEven (pad : Nat) (s : List Nat) : List Nat :=
  if s.length % 2 = 1 then s ++ [pad] else s

/-- The element bytes of `dimse.EncodeCommand` after the Command Group
Length element: optional elements are emitted only when non-zero /
non-empty, in the source's order; odd-length UIDs are NUL-padded and an
odd-length Move Destination space-padded. -/
def encodeCommandBody (msg : DMessage) : List Nat :=
  let b0 : List Nat := []
  let b1 := if msg.affectedSOPClassUID ≠ [] then
      AppendImplicitElement b0 0x0000 0x0002 (padEven 0 msg.affectedSOPClassUID) else b0
  let b2 := if msg.requestedSOPClassUID ≠ [] then
      AppendImplicitElement b1 0x0000 0x0003 (padEven 0 msg.requestedSOPClassUID) else b1
  let b3 := AppendImplicitElement b2 0x0000 0x0100 (u16le msg.commandField)
  let b4 := if msg.messageID ≠ 0 then
      AppendImplicitElement b3 0x0000 0x0110 (u16le msg.messageID) else b3
  let b5 := if msg.messageIDBeingRespondedTo ≠ 0 then
      AppendImplicitElement b4 0x0000 0x0120 (u16le msg.messageIDBeingRespondedTo) else b4
  let b6 := if msg.moveDestination ≠ [] then
      AppendImplicitElement b5 0x0000 0x0600 (padEven 0x20 msg.moveDestination) else b5
  let b7 := if msg.priority ≠ 0 then
      AppendImplicitElement b6 0x0000 0x0700 (u16le msg.priority) else b6
  let b8 := AppendImplicitElement b7 0x0000 0x0800 (u16le msg.commandDataSetType)
  let b9 := if msg.status ≠ 0 then
      AppendImplicitElement b8 0x0000 0x0900 (u16le msg.status) else b8
  let b10 := if msg.affectedSOPInstanceUID ≠ [] then
      AppendImplicitElement b9 0x0000 0x1000 (padEven 0 msg.affectedSOPInstanceUID) else b9
  let b11 := match msg.numberOfRemainingSuboperations with
    | some v => AppendImplicitElement b10 0x0000 0x1020 (u16le v)
    | none => b10
  let b12 := match msg.numberOfCompletedSuboperations with
    | some v => AppendImplicitElement b11 0x0000 0x1021 (u16le v)
    | none => b11
  let b13 := match msg.numberOfFailedSuboperations with
    | some v => AppendImplicitElement b12 0x0000 0x1022 (u16le v)
    | none => b12
  match msg.numberOfWarningSuboperations with
    | some v => AppendImplicitElement b13 0x0000 0x1023 (u16le v)
    | none => b13

/-- `dimse.EncodeCommand`: a Command Group Length element whose 32-bit
value is patched to the byte length of the remaining elements, followed by
those elements. -/
def EncodeCommand (msg : DMessage) : List Nat :=
  let body := encodeCommandBody msg
  AppendImplicitElement [] 0x0000 0x0000 (u32le body.length) ++ body

/-- The per-element update of `dimse.DecodeCommand`'s switch: group-0000
elements set the corresponding message field (UIDs trimmed of trailing NUL
and space bytes, 16-bit integers read only when at least two value bytes
are present); everything else is ignored. -/
def applyCommandElement (group element : Nat) (value : List Nat) (msg : DMessage) : DMessage :=
  if group ≠ 0 then msg
  else if element = 0x0002 then { msg with affectedSOPClassUID := trimRightBytes [0, 32] value }
  else if element = 0x0003 then { msg with requestedSOPClassUID := trimRightBytes [0, 32] value }
  else if element = 0x0100 then
    if value.length ≥ 2 then { msg with commandField := readU16le value } else msg
  else if element = 0x0110 then
    if value.length ≥ 2 then { msg with messageID := readU16le value } else msg
  else if element = 0x0120 then
    if value.length ≥ 2 then { msg with messageIDBeingRespondedTo := readU16le value } else msg
  else if element = 0x0600 then { msg with moveDestination := trimRightBytes [0, 32] value }
  else if element = 0x0700 then
    if value.length ≥ 2 then { msg with priority := readU16le value } else msg
  else if element = 0x0800 then
    if value.length ≥ 2 then { msg with commandDataSetType := readU16le value } else msg
  else if element = 0x0900 then
    if value.length ≥ 2 then { msg with status := readU16le value } else msg
  else if element = 0x1000 then
    { msg with affectedSOPInstanceUID := trimRightBytes [0, 32] value }
  else if element = 0x1020 then
    if value.length ≥ 2 then
      { msg with numberOfRemainingSuboperations := some (readU16le value) } else msg
  else if element = 0x1021 then
    if value.length ≥ 2 then
      { msg with numberOfCompletedSuboperations := some (readU16le value) } else msg
  else if element = 0x1022 then
    if value.length ≥ 2 then
      { msg with numberOfFailedSuboperations := some (readU16le value) } else msg
  else if element = 0x1023 then
    if value.length ≥ 2 then
      { msg with numberOfWarningSuboperations := some (readU16le value) } else msg
  else msg

/-- The element loop of `dimse.DecodeCommand`: while at least 8 bytes
remain read tag and 32-bit length, stop when the declared value overruns
the data, otherwise apply the element and continue after the value. -/
def decodeCommandLoop : Nat → List Nat → DMessage → DMessage
  | 0, _, msg => msg
  | fuel + 1, data, msg =>
    if data.length < 8 then msg
    else
      let group := readU16le data
      let element := readU16le (data.drop 2)
      let length := readU32le (data.drop 4)
      if data.length < 8 + length then msg
      else
        let value := (data.drop 8).take length
        decodeCommandLoop fuel (data.drop (8 + length))
          (applyCommandElement group element value msg)

/-- `dimse.DecodeCommand`: fold the elements over a message whose
`CommandDataSetType` defaults to 0x0101 ("no dataset present"). -/
def DecodeCommand (data : List Nat) : DMessage :=
  decodeCommandLoop (data.length + 1) data { commandDataSetType := 0x0101 }

/-- One implicit-VR command element as bytes: tag (little-endian group and
element numbers), 32-bit little-endian length, then the value. -/
def elemB (g e : Nat) (v : List Nat) : List Nat :=
  u16le g ++ u16le e ++ u32le v.length ++ v

/-- The group-0000 elements emitted by `dimse.EncodeCommand` after the
Command Group Length element, as (element number, value bytes) pairs in
emission order. -/
def cmdElems (msg : DMessage) : List (Nat × List Nat) :=
  (if msg.affectedSOPClassUID ≠ [] then
    [(0x0002, padEven 0 msg.affectedSOPClassUID)] else []) ++
  (if msg.requestedSOPClassUID ≠ [] then
    [(0x0003, padEven 0 msg.requestedSOPClassUID)] else []) ++
  [(0x0100, u16le msg.commandField)] ++
  (if msg.messageID ≠ 0 then [(0x0110, u16le msg.messageID)] else []) ++
  (if msg.messageIDBeingRespondedTo ≠ 0 then
    [(0x0120, u16le msg.messageIDBeingRespondedTo)] else []) ++
  (if msg.moveDestination ≠ [] then
    [(0x0600, padEven 0x20 msg.moveDestination)] else []) ++
  (if msg.priority ≠ 0 then [(0x0700, u16le msg.priority)] else []) ++
  [(0x0800, u16le msg.commandDataSetType)] ++
  (if msg.status ≠ 0 then [(0x0900, u16le msg.status)] else []) ++
  (if msg.affectedSOPInstanceUID ≠ [] then
    [(0x1000, padEven 0 msg.affectedSOPInstanceUID)] else []) ++
  (msg.numberOfRemainingSuboperations.elim [] fun v => [(0x1020, u16le v)]) ++
  (msg.numberOfCompletedSuboperations.elim [] fun v => [(0x1021, u16le v)]) ++
  (msg.numberOfFailedSuboperations.elim [] fun v => [(0x1022, u16le v)]) ++
  (msg.numberOfWarningSuboperations.elim [] fun v => [(0x1023, u16le v)])

/- ### Dataset codec (`dicom` package) -/

/-- `dicom.Tag`. -/
structure DTag where
  group : Nat
  element : Nat
deriving DecidableEq, Repr

/-- Strict tag order used by the encoder's sort: by group, then element. -/
def tagLt (a b : DTag) : Bool :=
  a.group < b.group || (a.group = b.group && a.element < b.element)

/-- The value stored in a `dicom.Element` (`interface{}` in Go).  The four
constructors cover the dynamic types the codec distinguishes for the data
of interest: `string`, `[]string`, `uint16` and `uint32` (the remaining Go
cases render via `fmt`). -/
inductive ElemValue where
  | vstr (s : List Nat)
  | vstrList (ss : List (List Nat))
  | vu16 (n : Nat)
  | vu32 (n : Nat)
deriving DecidableEq, Repr

/-- `dicom.Element` as stored through `Dataset.AddElement`: the `Tag`
field always equals the map key and the `Length` field is never assigned,
so only VR and value are carried here. -/
structure DElem where
  vr : List Nat
  value : ElemValue
deriving DecidableEq, Repr

/-- `dicom.Dataset`: the Go `map[Tag]*Element` modelled as an association
list kept strictly sorted by `tagLt` (the encoder iterates the map in
sorted tag order). -/
def Dataset := List (DTag × DElem)

instance : DecidableEq Dataset := inferInstanceAs (DecidableEq (List (DTag × DElem)))

/-- Map write `dataset.Elements[tag] = element`: sorted insert replacing an
existing entry (`dicom.Dataset.AddElement`). -/
def AddElement (d : Dataset) (t : DTag) (e : DElem) : Dataset :=
  match d with
  | [] => [(t, e)]
  | (t', e') :: rest =>
      if tagLt t t' then (t, e) :: (t', e') :: rest
      else if t = t' then (t, e) :: rest
      else (t', e') :: AddElement rest t e

/-- `dicom.encodeElementValue`: strings have trailing NULs stripped,
string lists are joined with a backslash before the strip, 16/32-bit
integers are little-endian. -/
def encodeElementValue (e : DElem) : List Nat :=
  match e.value with
  | .vstr s => trimRightBytes [0] s
  | .vstrList ss => trimRightBytes [0] (List.intercalate [92] ss)
  | .vu16 n => u16le n
  | .vu32 n => u32le n

/-- `dicom.parseElementValue`: empty values decode to the empty string;
otherwise the bytes are truncated at the first NUL and whitespace-trimmed
on both sides. -/
def parseElementValue (data : List Nat) : ElemValue :=
  if data = [] then .vstr []
  else .vstr (trimSpaceBytes (truncAtNul data))

/-- `dicom.determineVR`: the built-in Tag → VR dictionary (default UN). -/
def determineVR (t : DTag) : List Nat :=
  if t = ⟨0x0008, 0x0005⟩ then bstr "CS"
  else if t = ⟨0x0008, 0x0016⟩ then bstr "UI"
  else if t = ⟨0x0008, 0x0018⟩ then bstr "UI"
  else if t = ⟨0x0008, 0x0020⟩ then bstr "DA"
  else if t = ⟨0x0008, 0x0030⟩ then bstr "TM"
  else if t = ⟨0x0008, 0x0050⟩ then bstr "SH"
  else if t = ⟨0x0008, 0x0052⟩ then bstr "CS"
  else if t = ⟨0x0008, 0x0054⟩ then bstr "AE"
  else if t = ⟨0x0008, 0x0060⟩ then bstr "CS"
  else if t = ⟨0x0008, 0x0080⟩ then bstr "LO"
  else if t = ⟨0x0008, 0x0090⟩ then bstr "PN"
  else if t = ⟨0x0008, 0x1030⟩ then bstr "LO"
  else if t = ⟨0x0008, 0x103E⟩ then bstr "LO"
  else if t = ⟨0x0008, 0x1040⟩ then bstr "LO"
  else if t = ⟨0x0008, 0x1050⟩ then bstr "PN"
  else if t = ⟨0x0008, 0x1060⟩ then bstr "PN"
  else if t = ⟨0x0008, 0x1070⟩ then bstr "PN"
  else if t = ⟨0x0010, 0x0010⟩ then bstr "PN"
  else if t = ⟨0x0010, 0x0020⟩ then bstr "LO"
  else if t = ⟨0x0010, 0x0030⟩ then bstr "DA"
  else if t = ⟨0x0010, 0x0040⟩ then bstr "CS"
  else if t = ⟨0x0010, 0x1010⟩ then bstr "AS"
  else if t = ⟨0x0018, 0x0015⟩ then bstr "CS"
  else if t = ⟨0x0020, 0x000D⟩ then bstr "UI"
  else if t = ⟨0x0020, 0x000E⟩ then bstr "UI"
  else if t = ⟨0x0020, 0x0010⟩ then bstr "SH"
  else if t = ⟨0x0020, 0x0011⟩ then bstr "IS"
  else if t = ⟨0x0020, 0x0013⟩ then bstr "IS"
  else if t = ⟨0x0020, 0x0020⟩ then bstr "CS"
  else bstr "UN"

/-- The long-VR set tested by the explicit-VR encoder
(`dicom.Dataset.EncodeDataset`); note it lacks SV and UV. -/
def isLongVREncode (vr : List Nat) : Bool :=
  vr = bstr "OB" || vr = bstr "OW" || vr = bstr "SQ" || vr = bstr "UN" || vr = bstr "UT" ||
  vr = bstr "OD" || vr = bstr "OF" || vr = bstr "OL" || vr = bstr "OV" || vr = bstr "UC" ||
  vr = bstr "UR"

/-- The long-VR set tested by the explicit-VR parser (`dicom.ParseDataset`);
it additionally contains SV and UV. -/
def isLongVRParse (vr : List Nat) : Bool :=
  vr = bstr "OB" || vr = bstr "OD" || vr = bstr "OF" || vr = bstr "OL" || vr = bstr "OW" ||
  vr = bstr "SQ" || vr = bstr "UC" || vr = bstr "UR" || vr = bstr "UT" || vr = bstr "UN" ||
  vr = bstr "OV" || vr = bstr "SV" || vr = bstr "UV"

/-- One element's bytes in `dicom.encodeImplicitVRDataset`: little-endian
tag, 32-bit length of the space-padded value, then the value. -/
def encodeImplicitElement (t : DTag) (e : DElem) : List Nat :=
  let valueBytes := padEven 0x20 (encodeElementValue e)
  u16le t.group ++ u16le t.element ++ u32le valueBytes.length ++ valueBytes

/-- `dicom.encodeImplicitVRDataset`: elements in sorted tag order (the Go
code sorts the map's tags; on the sorted association-list model that
iteration is the list order). -/
def encodeImplicitVRDataset (d : Dataset) : List Nat :=
  (d.map fun p => encodeImplicitElement p.1 p.2).flatten

/-- One element's bytes in the explicit-VR `dicom.Dataset.EncodeDataset`:
tag, two VR bytes, then either reserved bytes and a 32-bit length (long
VRs) or a 16-bit length with values above 65535 bytes truncated. -/
def encodeExplicitElement (t : DTag) (e : DElem) : List Nat :=
  let valueBytes := padEven 0x20 (encodeElementValue e)
  if isLongVREncode e.vr then
    u16le t.group ++ u16le t.element ++ e.vr ++ [0x00, 0x00] ++ u32le valueBytes.length ++
      valueBytes
  else
    let vb := if valueBytes.length > 65535 then valueBytes.take 65535 else valueBytes
    u16le t.group ++ u16le t.element ++ e.vr ++ u16le vb.length ++ vb

/-- Explicit-VR `dicom.Dataset.EncodeDataset` in sorted tag order. -/
def EncodeDataset (d : Dataset) : List Nat :=
  (d.map fun p => encodeExplicitElement p.1 p.2).flatten

/-- `dicom.EncodeDatasetWithTransferSyntax`: Implicit VR Little Endian
selects the implicit encoder; the empty, explicit and unknown transfer
syntaxes select the explicit encoder. -/
def EncodeDatasetWithTransferSyntax (d : Dataset) (transferSyntaxUID : List Nat) : List Nat :=
  if transferSyntaxUID = ImplicitVRLittleEndian then encodeImplicitVRDataset d
  else EncodeDataset d

/-- The element loop of `dicom.parseImplicitVRDataset`: while at least 8
bytes remain read tag and 32-bit length; stop when the value overruns;
otherwise add the element (VR from the dictionary) and skip a padding byte
after odd-length values. -/
def parseImplicitLoop : Nat → List Nat → Dataset → Dataset
  | 0, _, acc => acc
  | fuel + 1, data, acc =>
    if data.length < 8 then acc
    else
      let t : DTag := ⟨readU16le data, readU16le (data.drop 2)⟩
      let length := readU32le (data.drop 4)
      if data.length < 8 + length then acc
      else
        let valueData := (data.drop 8).take length
        let acc' := AddElement acc t ⟨determineVR t, parseElementValue valueData⟩
        let skip := if length % 2 = 1 then 8 + length + 1 else 8 + length
        parseImplicitLoop fuel (data.drop skip) acc'

/-- `dicom.parseImplicitVRDataset`. -/
def parseImplicitVRDataset (data : List Nat) : Dataset :=
  parseImplicitLoop (data.length + 1) data []

/-- The element loop of the explicit-VR `dicom.ParseDataset`: read tag and
two VR bytes, a 32-bit length after two reserved bytes for long VRs or a
16-bit length for short VRs, stop on any overrun, and skip a padding byte
after odd-length values. -/
def parseExplicitLoop : Nat → List Nat → Dataset → Dataset
  | 0, _, acc => acc
  | fuel + 1, data, acc =>
    if data.length < 8 then acc
    else
      let t : DTag := ⟨readU16le data, readU16le (data.drop 2)⟩
      let vr := (data.drop 4).take 2
      if isLongVRParse vr then
        if data.length < 12 then acc
        else
          let length := readU32le (data.drop 8)
          if data.length < 12 + length then acc
          else
            let valueData := (data.drop 12).take length
            let acc' := AddElement acc t ⟨vr, parseElementValue valueData⟩
            let skip := if length % 2 = 1 then 12 + length + 1 else 12 + length
            parseExplicitLoop fuel (data.drop skip) acc'
      else
        let length := readU16le (data.drop 6)
        if data.length < 8 + length then acc
        else
          let valueData := (data.drop 8).take length
          let acc' := AddElement acc t ⟨vr, parseElementValue valueData⟩
          let skip := if length % 2 = 1 then 8 + length + 1 else 8 + length
          parseExplicitLoop fuel (data.drop skip) acc'

/-- Explicit-VR `dicom.ParseDataset`. -/
def ParseDataset (data : List Nat) : Dataset :=
  parseExplicitLoop (data.length + 1) data []

/-- `dicom.ParseDatasetWithTransferSyntax`. -/
def ParseDatasetWithTransferSyntax (data : List Nat) (transferSyntaxUID : List Nat) : Dataset :=
  if transferSyntaxUID = ImplicitVRLittleEndian then parseImplicitVRDataset data
  else ParseDataset data

/- ### DIMSE service layer (`dimse.Service`, `services.Registry`) -/

/-- `interfaces.MessageContext`: presentation context ID, negotiated
transfer syntax and the already-parsed dataset, handed to handlers. -/
structure MessageContext where
  presentationContextID : Nat
  transferSyntaxUID : List Nat
  dataset : Option Dataset

/-- `interfaces.ServiceHandler` / `interfaces.StreamingServiceHandler`:
the Go interface value held by `dimse.Service`.  A streaming handler is
modelled by the finite sequence of `responder.SendResponse(msg, dataset,
transferSyntaxUID)` calls it makes plus its optional returned error. -/
inductive ServiceHandler where
  | single (h : DMessage → List Nat → MessageContext →
      Except String (DMessage × Option Dataset))
  | streaming (h : DMessage → List Nat → MessageContext →
      List (DMessage × Option Dataset × List Nat) × Option String)

/-- Observable actions of `dimse.Service` at its interface boundaries:
bytes handed to `parseDIMSECommand`, and message/dataset pairs handed to
the PDU layer by `sendDIMSEResponse`. -/
inductive SvcEvent where
  | decodeCommandBytes (bytes : List Nat)
  | send (msg : DMessage) (datasetBytes : List Nat)
deriving DecidableEq, Repr

/-- The mutable fields of `dimse.Service` (SCP side, the variant with
negotiated-transfer-syntax tracking). -/
structure SvcState where
  commandData : List Nat := []
  datasetData : List Nat := []
  currentMsg : Option DMessage := none
  transferUID : List Nat := []
  contextID : Nat := 0
deriving DecidableEq, Repr

/-- `dimse.Service.resetState`. -/
def resetSvcState : SvcState := {}

/-- The `responder.SendResponse` body (`dimse.responseHandler.SendResponse`):
an empty transfer-syntax argument falls back to the default, the dataset is
encoded under that syntax, the syntax is propagated into the message, and
the pair goes to the PDU layer. -/
def sendResponseEvent (defaultTS : List Nat) (call : DMessage × Option Dataset × List Nat) :
    SvcEvent :=
  let tsUID := if call.2.2 = [] then defaultTS else call.2.2
  let datasetBytes := match call.2.1 with
    | none => []
    | some d => EncodeDatasetWithTransferSyntax d tsUID
  .send { call.1 with transferSyntaxUID := tsUID } datasetBytes

/-- `dimse.Service.processCompleteMessage`: resolve the transfer syntax,
parse the accumulated dataset bytes, build the message context and invoke
the handler — streaming when the handler implements the streaming
interface, otherwise the single-response fallback whose error is returned
without any response being sent.  `tsLookup` stands for
`pduLayer.GetTransferSyntax`.  Returns the outcome and the events emitted. -/
def processCompleteMessage (handler : ServiceHandler) (tsLookup : Nat → Option (List Nat))
    (st : SvcState) (presContextID : Nat) : Except String Unit × List SvcEvent :=
  match st.currentMsg with
  | none => (.error "no current message to process", [])
  | some msg =>
      let tsUID := if st.transferUID ≠ [] then st.transferUID
        else (tsLookup presContextID).getD []
      let msg := { msg with transferSyntaxUID := tsUID }
      let parsedDataset : Option Dataset :=
        if st.datasetData.length > 0 then
          some (ParseDatasetWithTransferSyntax st.datasetData tsUID)
        else none
      let meta : MessageContext :=
        ⟨presContextID, tsUID, parsedDataset⟩
      match handler with
      | .streaming h =>
          let (calls, err) := h msg st.datasetData meta
          let events := calls.map (sendResponseEvent tsUID)
          (match err with | none => .ok () | some e => .error e, events)
      | .single h =>
          match h msg st.datasetData meta with
          | .error e => (.error ("service handler failed: " ++ e), [])
          | .ok (responseMsg, responseDataset) =>
              let responseTS := if responseMsg.transferSyntaxUID = [] then tsUID
                else responseMsg.transferSyntaxUID
              let encodedDataset := match responseDataset with
                | none => []
                | some d => EncodeDatasetWithTransferSyntax d responseTS
              (.ok (), [.send { responseMsg with transferSyntaxUID := responseTS }
                encodedDataset])

/-- `dimse.Service.HandleDIMSEMessage`: record the negotiated transfer
syntax, then dispatch on the message control header.  A last-fragment
command PDV *assigns* (not appends) its payload to the command buffer and
hands exactly those bytes to `parseDIMSECommand` (abstracted as `dec`,
whose two-argument source version is not among the provided files);
non-last command PDVs append.  Dataset PDVs append; a last dataset
fragment completes the message.  `processCompleteMessage`'s deferred
`resetState` clears the state whenever it runs. -/
def HandleDIMSEMessage (handler : ServiceHandler) (dec : List Nat → Except String DMessage)
    (tsLookup : Nat → Option (List Nat)) (st : SvcState) (presContextID mch : Nat)
    (data : List Nat) : SvcState × Except String Unit × List SvcEvent :=
  let ts := (tsLookup presContextID).getD []
  let newTransfer := if ts ≠ [] then ts else st.transferUID
  let st := { st with transferUID := newTransfer, contextID := presContextID }
  let isCommand := mch.testBit 0
  let isLastFragment := mch.testBit 1
  if isCommand then
    if isLastFragment then
      let st := { st with commandData := data }
      match dec data with
      | .error _ => (st, .error "failed to parse DIMSE command",
          [.decodeCommandBytes data])
      | .ok msg =>
          let st := { st with currentMsg := some msg }
          if msg.commandDataSetType = 0x0101 then
            let (res, events) := processCompleteMessage handler tsLookup st presContextID
            (resetSvcState, res, .decodeCommandBytes data :: events)
          else (st, .ok (), [.decodeCommandBytes data])
    else ({ st with commandData := st.commandData ++ data }, .ok (), [])
  else
    let st := { st with datasetData := st.datasetData ++ data }
    if isLastFragment then
      let (res, events) := processCompleteMessage handler tsLookup st presContextID
      (resetSvcState, res, events)
    else (st, .ok (), [])

/-- `services.CreateErrorResponse`: response command field with the
response bit set, message ID echoed, no dataset, the given status. -/
def CreateErrorResponse (req : DMessage) (status : Nat) : DMessage :=
  { commandField := req.commandField ||| 0x8000,
    messageIDBeingRespondedTo := req.messageID,
    affectedSOPClassUID := req.affectedSOPClassUID,
    commandDataSetType := 0x0101,
    status := status }

/-- Handler-map lookup of `services.Registry`. -/
def lookupHandler (handlers : List (Nat × ServiceHandler)) (commandField : Nat) :
    Option ServiceHandler :=
  match handlers with
  | [] => none
  | (k, h) :: rest => if commandField = k then some h else lookupHandler rest commandField

/-- `services.Registry` as the `ServiceHandler` installed in
`dimse.Service` (it implements the streaming interface):
`HandleDIMSEStreaming` fails with "unsupported DIMSE command" when no
handler is registered for the command field, forwards to a streaming
handler, and adapts a single-response handler into one responder call
(made with the registry's default, empty, transfer-syntax argument). -/
def registryAsHandler (handlers : List (Nat × ServiceHandler)) : ServiceHandler :=
  .streaming (fun msg data meta =>
    match lookupHandler handlers msg.commandField with
    | none => ([], some "unsupported DIMSE command")
    | some (.streaming h) => h msg data meta
    | some (.single h) =>
        match h msg data meta with
        | .error e => ([], some e)
        | .ok (m, ds) => ([(m, ds, [])], none))

/- ### Concrete inputs used to evaluate the code at specific points -/

/-- An A-ASSOCIATE-RQ body: 68 fixed-header bytes, one well-formed
presentation context item (ID 1, abstract syntax Verification, no
transfer-syntax sub-items), then an item whose declared length 0xFFFF
overruns the PDU. -/
def assocBodyPartialThenBad : List Nat :=
  List.replicate 68 0 ++
    ([0x20, 0x00] ++ u16be 25 ++
      ([0x01, 0x00, 0x00, 0x00] ++ [0x30, 0x00] ++ u16be 17 ++ bstr "1.2.840.10008.1.1")) ++
    [0x10, 0x00, 0xFF, 0xFF]

/-- A handler that never responds, a command decoder accepting anything
with a dataset announced, and an empty transfer-syntax lookup: fixtures
for exercising `HandleDIMSEMessage` on fragmented commands. -/
def quietHandler : ServiceHandler := .streaming fun _ _ _ => ([], none)

def acceptAnyDec : List Nat → Except String DMessage :=
  fun _ => .ok { commandDataSetType := 0x0000 }

def noTSLookup : Nat → Option (List Nat) := fun _ => none

/-- The service state after a non-last command PDV with payload `[1, 2]`. -/
def stateAfterFirstFragment : SvcState :=
  (HandleDIMSEMessage quietHandler acceptAnyDec noTSLookup {} 1 0x01 [1, 2]).1

/-- A C-ECHO-RQ and a service state holding it as the current message. -/
def echoReqMsg : DMessage :=
  { commandField := 0x0030, messageID := 7, commandDataSetType := 0x0101 }

def echoReqState : SvcState :=
  { commandData := [], datasetData := [], currentMsg := some echoReqMsg,
    transferUID := ImplicitVRLittleEndian, contextID := 1 }

/- ### Helper lemmas -/

theorem readU16le_u16le (n : Nat) (r : List Nat) (h : n < 65536) :
    readU16le (u16le n ++ r) = n := by
  simp only [u16le, readU16le, List.cons_append, List.getD, List.get?, Option.getD]
  omega

theorem readU32le_u32le (n : Nat) (r : List Nat) (h : n < 4294967296) :
    readU32le (u32le n ++ r) = n := by
  simp only [u32le, readU32le, List.cons_append, List.getD, List.get?, Option.getD]
  omega

theorem readU16be_u16be (n : Nat) (r : List Nat) (h : n < 65536) :
    readU16be (u16be n ++ r) = n := by
  simp only [u16be, readU16be, List.cons_append, List.getD, List.get?, Option.getD]
  omega

theorem readU32be_u32be (n : Nat) (r : List Nat) (h : n < 4294967296) :
    readU32be (u32be n ++ r) = n := by
  simp only [u32be, readU32be, List.cons_append, List.getD, List.get?, Option.getD]
  omega

theorem dropWhile_eq_self_of_head? {p : Nat → Bool} {l : List Nat}
    (h : ∀ b ∈ l.head?, p b = false) : l.dropWhile p = l := by
  cases l with
  | nil => rfl
  | cons a as =>
      have ha : p a = false := h a rfl
      simp [List.dropWhile_cons, ha]

theorem trimRightBytes_eq_self (cut l : List Nat)
    (h : ∀ b ∈ l.getLast?, ¬ b ∈ cut) : trimRightBytes cut l = l := by
  unfold trimRightBytes
  have hrev : l.reverse.dropWhile (fun b => decide (b ∈ cut)) = l.reverse := by
    apply dropWhile_eq_self_of_head?
    intro b hb
    rw [List.head?_reverse] at hb
    simpa using h b hb
  rw [hrev, List.reverse_reverse]

theorem trimRightBytes_append_mem (cut l : List Nat) (p : Nat) (hp : p ∈ cut)
    (h : ∀ b ∈ l.getLast?, ¬ b ∈ cut) : trimRightBytes cut (l ++ [p]) = l := by
  unfold trimRightBytes
  rw [List.reverse_append]
  have hrev : l.reverse.dropWhile (fun b => decide (b ∈ cut)) = l.reverse := by
    apply dropWhile_eq_self_of_head?
    intro b hb
    rw [List.head?_reverse] at hb
    simpa using h b hb
  simp only [List.reverse_cons, List.reverse_nil, List.nil_append, List.singleton_append,
    List.dropWhile_cons]
  simp only [hp, decide_True, if_true, hrev, List.reverse_reverse]

theorem trimRightBytes_padEven (pad : Nat) (l : List Nat) (hpad : pad = 0 ∨ pad = 32)
    (h : ∀ b ∈ l.getLast?, b ≠ 0 ∧ b ≠ 32) :
    trimRightBytes [0, 32] (padEven pad l) = l := by
  have h' : ∀ b ∈ l.getLast?, ¬ b ∈ ([0, 32] : List Nat) := by
    intro b hb hmem
    rcases h b hb with ⟨h0, h32⟩
    simp only [List.mem_cons, List.mem_singleton] at hmem
    rcases hmem with rfl | rfl | hf
    · exact h0 rfl
    · exact h32 rfl
    · exact absurd hf (List.not_mem_nil b)
  unfold padEven
  split
  · exact trimRightBytes_append_mem _ _ _ (by rcases hpad with rfl | rfl <;> simp) h'
  · exact trimRightBytes_eq_self _ _ h'

theorem truncAtNul_eq_self (l : List Nat) (h : ∀ b ∈ l, b ≠ 0) : truncAtNul l = l := by
  induction l with
  | nil => rfl
  | cons a as ih =>
      have ha : a ≠ 0 := h a (by simp)
      have ih' := ih (fun b hb => h b (List.mem_cons_of_mem _ hb))
      have hcond : (fun b => decide (b ≠ 0)) a = true := by simpa using ha
      simp only [truncAtNul] at ih' ⊢
      rw [List.takeWhile_cons, if_pos hcond, ih']

theorem trimSpaceBytes_eq_self (l : List Nat)
    (hh : ∀ b ∈ l.head?, isSpaceByte b = false)
    (hl : ∀ b ∈ l.getLast?, isSpaceByte b = false) : trimSpaceBytes l = l := by
  unfold trimSpaceBytes
  rw [dropWhile_eq_self_of_head? hh]
  have : l.reverse.dropWhile isSpaceByte = l.reverse := by
    apply dropWhile_eq_self_of_head?
    intro b hb
    rw [List.head?_reverse] at hb
    exact hl b hb
  rw [this, List.reverse_reverse]

theorem trimSpaceBytes_append_space (l : List Nat)
    (hh : ∀ b ∈ l.head?, isSpaceByte b = false)
    (hl : ∀ b ∈ l.getLast?, isSpaceByte b = false) : trimSpaceBytes (l ++ [32]) = l := by
  cases l with
  | nil => rfl
  | cons a as =>
      have ha : isSpaceByte a = false := hh a rfl
      unfold trimSpaceBytes
      have hd : ((a :: as) ++ [32]).dropWhile isSpaceByte = (a :: as) ++ [32] := by
        simp [List.dropWhile_cons, ha]
      have htail : (a :: as).reverse.dropWhile isSpaceByte = (a :: as).reverse := by
        apply dropWhile_eq_self_of_head?
        intro b hb
        rw [List.head?_reverse] at hb
        exact hl b hb
      rw [hd, List.reverse_append, show ([32] : List Nat).reverse = [32] from rfl,
        List.singleton_append, List.dropWhile_cons]
      rw [if_pos (by decide : isSpaceByte 32 = true), htail, List.reverse_reverse]

/- ### Negotiation lemmas (shared) -/

theorem supportsTransferSyntax_ne_nil {ts : List Nat} (h : supportsTransferSyntax ts = true) :
    ts ≠ [] := by
  unfold supportsTransferSyntax at h
  rcases Bool.or_eq_true_iff.mp h with h1 | h2
  · intro hnil
    rw [hnil] at h1
    exact absurd h1 (by decide)
  · intro hnil
    rw [hnil] at h2
    exact absurd h2 (by decide)

theorem negotiateContext_unsupported_abstract {abs : List Nat} (tss : List (List Nat))
    (h : supportsAbstractSyntax abs = false) : negotiateContext abs tss = (0x03, []) := by
  unfold negotiateContext
  simp [h, presentationResultRejectAbstractSyntax, presentationResultAcceptance]

theorem negotiateContext_accept {abs : List Nat} {tss : List (List Nat)} {ts : List Nat}
    (h : supportsAbstractSyntax abs = true)
    (hfind : tss.find? supportsTransferSyntax = some ts) :
    negotiateContext abs tss = (0x00, ts) := by
  have hts : ts ≠ [] := supportsTransferSyntax_ne_nil (List.find?_some hfind)
  unfold negotiateContext
  simp [h, hfind, presentationResultAcceptance, hts]

theorem negotiateContext_no_transfer {abs : List Nat} {tss : List (List Nat)}
    (h : supportsAbstractSyntax abs = true)
    (hfind : tss.find? supportsTransferSyntax = none) :
    negotiateContext abs tss = (0x04, []) := by
  unfold negotiateContext
  simp [h, hfind, presentationResultAcceptance, presentationResultRejectTransferSyntax]

theorem parsePresentationContext_ok {data : List Nat} {ctx : PresentationContext}
    (h : parsePresentationContext data = .ok ctx) :
    ∃ abs tss, parsePCSubItems (data.drop 4) [] [] = .ok (abs, tss) ∧ abs ≠ [] ∧
      ctx.abstractSyntax = abs ∧ ctx.id = data.getD 0 0 ∧
      (ctx.result, ctx.transferSyntax) = negotiateContext abs tss := by
  unfold parsePresentationContext at h
  by_cases h4 : data.length < 4
  · simp [h4, throw, throwThe, MonadExceptOf.throw] at h
  · simp only [h4, if_false] at h
    cases hp : parsePCSubItems (data.drop 4) [] [] with
    | error e =>
        rw [hp] at h
        simp [Bind.bind, Except.bind] at h
    | ok pr =>
        obtain ⟨abs, tss⟩ := pr
        rw [hp] at h
        simp only [Bind.bind, Except.bind] at h
        by_cases habs : abs = []
        · simp [habs, throw, throwThe, MonadExceptOf.throw] at h
        · simp only [habs, if_false] at h
          refine ⟨abs, tss, rfl, habs, ?_⟩
          have hc : (⟨data.getD 0 0, (negotiateContext abs tss).1, abs,
              (negotiateContext abs tss).2⟩ : PresentationContext) = ctx := by
            simpa [pure, Except.pure] using h
          rw [← hc]
          exact ⟨rfl, rfl, rfl⟩

/- ### Claim theorems -/

/-- C1: For every proposed presentation context in an A-ASSOCIATE-RQ: a
successfully parsed context carries exactly the result computed by the
negotiation over the extracted abstract syntax and transfer-syntax list;
an unsupported abstract syntax yields result 0x03; a supported abstract
syntax with some supported proposed transfer syntax yields result 0x00
with the first supported one (the `List.find?` of the list in order
received); a supported abstract syntax with no supported proposed
transfer syntax yields result 0x04. -/
theorem claim_C1_negotiation :
    (∀ data ctx, parsePresentationContext data = .ok ctx →
       ∃ abs tss, parsePCSubItems (data.drop 4) [] [] = .ok (abs, tss) ∧
         ctx.abstractSyntax = abs ∧
         (ctx.result, ctx.transferSyntax) = negotiateContext abs tss) ∧
    (∀ abs tss, supportsAbstractSyntax abs = false →
       negotiateContext abs tss = (0x03, [])) ∧
    (∀ abs tss ts, supportsAbstractSyntax abs = true →
       tss.find? supportsTransferSyntax = some ts →
       negotiateContext abs tss = (0x00, ts)) ∧
    (∀ abs tss, supportsAbstractSyntax abs = true →
       tss.find? supportsTransferSyntax = none →
       negotiateContext abs tss = (0x04, [])) := by
  refine ⟨?_, ?_, ?_, ?_⟩
  · intro data ctx h
    obtain ⟨abs, tss, hp, _, ha, _, hr⟩ := parsePresentationContext_ok h
    exact ⟨abs, tss, hp, ha, hr⟩
  · intro abs tss h
    exact negotiateContext_unsupported_abstract tss h
  · intro abs tss ts h hfind
    exact negotiateContext_accept h hfind
  · intro abs tss h hfind
    exact negotiateContext_no_transfer h hfind

theorem claim_C1_negotiation_witness :
    negotiateContext (bstr "1.2.840.10008.1.1") [bstr "1.2.3", ImplicitVRLittleEndian] =
      (0x00, ImplicitVRLittleEndian) ∧
    negotiateContext (bstr "9.9.9") [ImplicitVRLittleEndian] = (0x03, []) ∧
    negotiateContext (bstr "1.2.840.10008.1.1") [bstr "1.2.3"] = (0x04, []) := by
  refine ⟨?_, ?_, ?_⟩
  · exact claim_C1_negotiation.2.2.1 _ _ _ (by decide) (by decide)
  · exact claim_C1_negotiation.2.1 _ _ (by decide)
  · exact claim_C1_negotiation.2.2.2 _ _ (by decide) (by decide)

theorem negotiateContext_fst_zero {abs : List Nat} {tss : List (List Nat)}
    (h : (negotiateContext abs tss).1 = 0x00) : (negotiateContext abs tss).2 ≠ [] := by
  by_cases hsup : supportsAbstractSyntax abs = true
  · cases hfind : tss.find? supportsTransferSyntax with
    | some ts =>
        rw [negotiateContext_accept hsup hfind]
        exact supportsTransferSyntax_ne_nil (List.find?_some hfind)
    | none =>
        rw [negotiateContext_no_transfer hsup hfind] at h
        exact absurd h (by decide)
  · rw [negotiateContext_unsupported_abstract tss (Bool.eq_false_iff.mpr hsup)] at h
    exact absurd h (by decide)

theorem parsePresentationContext_accepted_ne_nil {data : List Nat} {ctx : PresentationContext}
    (h : parsePresentationContext data = .ok ctx) (hr : ctx.result = 0x00) :
    ctx.transferSyntax ≠ [] := by
  obtain ⟨abs, tss, _, _, _, _, hneg⟩ := parsePresentationContext_ok h
  have h1 : ctx.result = (negotiateContext abs tss).1 := congrArg Prod.fst hneg
  have h2 : ctx.transferSyntax = (negotiateContext abs tss).2 := congrArg Prod.snd hneg
  rw [h2]
  exact negotiateContext_fst_zero (h1 ▸ hr)

theorem mem_insertCtx {m : List (Nat × PresentationContext)} {k : Nat}
    {v : PresentationContext} {p : Nat × PresentationContext} (h : p ∈ insertCtx m k v) :
    p = (k, v) ∨ p ∈ m := by
  induction m with
  | nil => simpa [insertCtx] using h
  | cons q rest ih =>
      unfold insertCtx at h
      by_cases h1 : k < q.1
      · simp only [h1, if_true] at h
        rcases List.mem_cons.mp h with h' | h'
        · exact Or.inl h'
        · exact Or.inr h'
      · simp only [h1, if_false] at h
        by_cases h2 : k = q.1
        · simp only [h2, if_true] at h
          rcases List.mem_cons.mp h with h' | h'
          · exact Or.inl (by simpa [h2] using h')
          · exact Or.inr (List.mem_cons_of_mem _ h')
        · simp only [h2, if_false] at h
          rcases List.mem_cons.mp h with h' | h'
          · exact Or.inr (by simp [h'])
          · rcases ih h' with h'' | h''
            · exact Or.inl h''
            · exact Or.inr (List.mem_cons_of_mem _ h'')

/-- Accepted-implies-nonempty-transfer-syntax is preserved by the variable
item loop of `parseAssociationRequest`. -/
theorem parseAssocItemsLoop_inv : ∀ (fuel : Nat) (rest : List Nat) (ctx : AssociationContext),
    (∀ p ∈ ctx.presentationCtxs, p.2.result = 0x00 → p.2.transferSyntax ≠ []) →
    ∀ p ∈ (parseAssocItemsLoop fuel rest ctx).1.presentationCtxs,
      p.2.result = 0x00 → p.2.transferSyntax ≠ [] := by
  intro fuel
  induction fuel with
  | zero =>
      intro rest ctx hinv
      exact hinv
  | succ n ih =>
      intro rest ctx hinv
      rw [parseAssocItemsLoop]
      by_cases h4 : rest.length < 4
      · simp only [h4, if_pos]
        exact hinv
      · simp only [h4, if_neg, not_false_iff]
        set itemLength := readU16be (rest.drop 2) with hil
        by_cases hov : rest.length < 4 + itemLength
        · simp only [hov, if_pos]
          exact hinv
        · simp only [hov, if_neg, not_false_iff]
          apply ih
          intro p hp hr
          by_cases h20 : rest.getD 0 0 = 0x20
          · simp only [h20, if_pos] at hp
            cases hpc : parsePresentationContext ((rest.drop 4).take itemLength) with
            | error e =>
                rw [hpc] at hp
                exact hinv p hp hr
            | ok pc =>
                rw [hpc] at hp
                simp only at hp
                rcases mem_insertCtx hp with rfl | hmem
                · exact parsePresentationContext_accepted_ne_nil hpc hr
                · exact hinv p hmem hr
          · simp only [h20, if_neg, not_false_iff] at hp
            by_cases h50 : rest.getD 0 0 = 0x50
            · simp only [h50, if_pos] at hp
              cases hui : parseUserInformation ((rest.drop 4).take itemLength) 0 with
              | error e =>
                  rw [hui] at hp
                  exact hinv p hp hr
              | ok maxLen =>
                  rw [hui] at hp
                  by_cases hml : maxLen > 0
                  · simp only [hml, if_pos] at hp
                    exact hinv p hp hr
                  · simp only [hml, if_neg, not_false_iff] at hp
                    exact hinv p hp hr
            · simp only [h50, if_neg, not_false_iff] at hp
              exact hinv p hp hr

/-- C7: every presentation context marked accepted (result 0x00) in the
association state produced by `handleAssociateRequest` has a non-empty
transfer syntax; every context accepted by `parsePresentationContext` has
a non-empty transfer syntax; and every presentation-context item of the
A-ASSOCIATE-AC whose result byte is 0x00 carries a Transfer Syntax
sub-item with the full non-empty negotiated UID. -/
theorem claim_C7_accepted_nonempty_ts :
    (∀ aet pdu, ∀ p ∈ (handleAssociateRequest aet pdu).1.presentationCtxs,
       p.2.result = 0x00 → p.2.transferSyntax ≠ []) ∧
    (∀ data ctx, parsePresentationContext data = .ok ctx → ctx.result = 0x00 →
       ctx.transferSyntax ≠ []) ∧
    (∀ ctx : PresentationContext, (presItemFor ctx)[5]? = some 0x00 →
       ctx.transferSyntax ≠ [] ∧
       presItemFor ctx = [0x21, 0x00] ++
         u16be (4 + ([0x40, 0x00] ++ u16be ctx.transferSyntax.length ++
           ctx.transferSyntax).length) ++
         [ctx.id, 0x00, 0x00, 0x00] ++
         ([0x40, 0x00] ++ u16be ctx.transferSyntax.length ++ ctx.transferSyntax)) := by
  refine ⟨?_, ?_, ?_⟩
  · intro aet pdu p hp hr
    unfold handleAssociateRequest at hp
    set init : AssociationContext :=
      { calledAETitle := aet, callingAETitle := bstr "UNKNOWN",
        maxPDULength := 16384, presentationCtxs := [] } with hinit
    have hparse : ∀ q ∈ (parseAssociationRequest init pdu.data).1.presentationCtxs,
        q.2.result = 0x00 → q.2.transferSyntax ≠ [] := by
      unfold parseAssociationRequest
      by_cases hlen : pdu.data.length < 68
      · simp [hlen, hinit]
      · simp only [hlen, if_neg, not_false_iff]
        unfold parseAssocItems
        apply parseAssocItemsLoop_inv
        simp
    by_cases hempty : (parseAssociationRequest init pdu.data).1.presentationCtxs = []
    · simp only [hempty, if_pos] at hp
      have hmem : p ∈ defaultPresentationCtxs := hp
      simp only [defaultPresentationCtxs, List.mem_cons, List.mem_singleton,
        List.not_mem_nil, or_false] at hmem
      rcases hmem with rfl | rfl | rfl | rfl | rfl | rfl | rfl <;> decide
    · simp only [hempty, if_neg, not_false_iff] at hp
      exact hparse p hp hr
  · intro data ctx h hr
    exact parsePresentationContext_accepted_ne_nil h hr
  · intro ctx hbyte
    unfold presItemFor at hbyte ⊢
    by_cases hres : ctx.result ≠ presentationResultAcceptance
    · simp [hres] at hbyte
    · simp only [hres, if_neg, not_false_iff] at hbyte ⊢
      push_neg at hres
      by_cases hts : ctx.transferSyntax = []
      · exfalso
        simp only [hts, if_pos] at hbyte
        norm_num [u16be, presentationResultRejectTransferSyntax] at hbyte
      · simp only [hts, if_neg, not_false_iff] at hbyte ⊢
        refine ⟨hts, ?_⟩
        rw [hres]
        rfl

theorem claim_C7_witness :
    (∀ p ∈ (handleAssociateRequest (bstr "SRV") ⟨0x01, []⟩).1.presentationCtxs,
       p.2.result = 0x00 → p.2.transferSyntax ≠ []) ∧
    ((presItemFor ⟨1, 0, VerificationSOPClass, ImplicitVRLittleEndian⟩)[5]? = some 0x00 →
       ImplicitVRLittleEndian ≠ ([] : List Nat)) := by
  constructor
  · exact claim_C7_accepted_nonempty_ts.1 (bstr "SRV") ⟨0x01, []⟩
  · intro h
    exact (claim_C7_accepted_nonempty_ts.2.2 ⟨1, 0, VerificationSOPClass,
      ImplicitVRLittleEndian⟩ h).1

/-- C9 counterexample: when the first PDU is not an A-ASSOCIATE-RQ (here a
P-DATA-TF, type 0x04), the server returns an error having written *no*
PDU at all — in particular no A-ABORT is sent, contrary to the claim. -/
theorem claim_C9_counterexample :
    handleAssociationPhase (bstr "SRV") ⟨0x04, []⟩ =
      (.error "expected A-ASSOCIATE-RQ, got other PDU type", []) := by
  rfl

/-- C9 (amended): in the AwaitingRQ state, a first PDU whose type is not
0x01 makes `handleAssociationPhase` return an error with an empty list of
written PDUs (no A-ABORT or any other PDU is sent); the connection is then
closed by the deferred `Close` in `HandleConnection`. -/
theorem claim_C9_amended (aet : List Nat) (pdu : PDU) (h : pdu.pduType ≠ 0x01) :
    handleAssociationPhase aet pdu =
      (.error "expected A-ASSOCIATE-RQ, got other PDU type", []) := by
  unfold handleAssociationPhase
  simp [h]

theorem claim_C9_amended_witness :
    handleAssociationPhase (bstr "SRV") ⟨0x02, [1, 2, 3]⟩ =
      (.error "expected A-ASSOCIATE-RQ, got other PDU type", []) :=
  claim_C9_amended (bstr "SRV") ⟨0x02, [1, 2, 3]⟩ (by decide)

/-- C10 counterexample: an A-ASSOCIATE-RQ body that *fails to parse*
(overrunning item) after one presentation context was already stored.  The
parse reports an error, yet the seven defaults are not installed: context
ID 3 is absent and the context map differs from the default set — refuting
the claim that any parse failure yields the seven accepted defaults. -/
theorem claim_C10_counterexample :
    (parseAssociationRequest ⟨bstr "SRV", bstr "UNKNOWN", 16384, []⟩
        assocBodyPartialThenBad).2 = some "association item exceeds PDU length" ∧
    lookupCtx (handleAssociateRequest (bstr "SRV")
        ⟨0x01, assocBodyPartialThenBad⟩).1.presentationCtxs 3 = none ∧
    (handleAssociateRequest (bstr "SRV")
        ⟨0x01, assocBodyPartialThenBad⟩).1.presentationCtxs ≠ defaultPresentationCtxs := by
  decide

/-- C10 (amended): the seven default presentation contexts (IDs 1, 3, 5,
7, 9, 11, 13 — Verification, the three Q/R FIND models and the three Q/R
MOVE models, each accepted with Implicit VR Little Endian) are installed
exactly when parsing leaves zero presentation contexts in the association
context — which includes every body shorter than 68 bytes, whose parse
fails before touching the context.  A parse failure after at least one
context was stored keeps the partial set instead. -/
theorem claim_C10_amended :
    (∀ aet body,
       (parseAssociationRequest ⟨aet, bstr "UNKNOWN", 16384, []⟩ body).1.presentationCtxs
         = [] →
       (handleAssociateRequest aet ⟨0x01, body⟩).1.presentationCtxs =
         defaultPresentationCtxs) ∧
    (∀ init body, body.length < 68 →
       parseAssociationRequest init body = (init, some "association request too short")) ∧
    (defaultPresentationCtxs.map Prod.fst = [1, 3, 5, 7, 9, 11, 13]) ∧
    (∀ p ∈ defaultPresentationCtxs, p.2.result = 0x00 ∧
       p.2.transferSyntax = ImplicitVRLittleEndian) := by
  refine ⟨?_, ?_, by decide, by decide⟩
  · intro aet body h
    unfold handleAssociateRequest
    simp [h]
  · intro init body h
    unfold parseAssociationRequest
    simp [h]

theorem claim_C10_amended_witness :
    (handleAssociateRequest (bstr "SRV") ⟨0x01, []⟩).1.presentationCtxs =
      defaultPresentationCtxs :=
  claim_C10_amended.1 (bstr "SRV") []
    (by rw [(claim_C10_amended.2.1 _ [] (by decide) : _)])

/-- C3 counterexample: on the SCP response path a 3-byte command payload
with a peer-advertised maximum PDU length of 14 is written as a single
15-byte P-DATA-TF PDU — its PDV payload of 3 bytes exceeds the per-PDV
budget `max_pdu_length − 6 − 6 = 2` and the whole PDU exceeds the peer
maximum, refuting the claim for the SCP path. -/
theorem claim_C3_counterexample :
    (SendDIMSEResponseWithDataset 1 [0, 0, 0] []).map List.length = [15] ∧
    ¬ (15 ≤ 14) ∧ ¬ (3 ≤ 14 - 6 - 6) := by
  decide

theorem sendPDataTFLoop_length (pcid mp : Nat) (c l : Bool) (hmp : 14 ≤ mp) :
    ∀ fuel data pdus, sendPDataTFLoop pcid mp c l fuel data = some pdus →
      ∀ pdu ∈ pdus, pdu.length ≤ mp := by
  intro fuel
  induction fuel with
  | zero =>
      intro data pdus h pdu hm
      cases data with
      | nil =>
          simp only [sendPDataTFLoop, Option.some.injEq] at h
          subst h
          exact absurd hm (List.not_mem_nil pdu)
      | cons a as => exact absurd h (by simp [sendPDataTFLoop])
  | succ n ih =>
      intro data pdus h pdu hm
      cases data with
      | nil =>
          simp only [sendPDataTFLoop, Option.some.injEq] at h
          subst h
          exact absurd hm (List.not_mem_nil pdu)
      | cons a as =>
          rw [sendPDataTFLoop] at h
          cases hrec : sendPDataTFLoop pcid mp c l n ((a :: as).drop
              (if decide ((a :: as).length ≤ mp - 12) then (a :: as).length else mp - 12)) with
          | none => rw [hrec] at h; exact absurd h (by simp)
          | some rest =>
              rw [hrec] at h
              simp only [Option.map_some', Option.some.injEq] at h
              subst h
              rcases List.mem_cons.mp hm with rfl | hmem
              · set C := (if decide ((a :: as).length ≤ mp - 12) = true
                    then (a :: as).length else mp - 12) with hCdef
                have hC : C ≤ mp - 12 := by
                  rw [hCdef]
                  split
                  · next hdec => exact of_decide_eq_true hdec
                  · exact le_rfl
                simp only [List.length_append, List.length_cons, List.length_take, u32be,
                  List.length_nil]
                omega
              · exact ih _ rest hrec pdu hmem

/-- C3 (amended): on the SCU send path (`SendPDataTF`) every emitted
P-DATA-TF PDU — PDU header, PDV header and fragment together — fits within
the peer maximum PDU length whenever `max_pdu_length ≥ 14`, so each PDV
payload respects the `max_pdu_length − 6 − 6` budget.  The SCP response
path (`Layer.SendDIMSEResponseWithDataset`) instead writes the whole
command as one PDV and the whole dataset as one PDV, with no regard for
the peer maximum. -/
theorem claim_C3_amended :
    (∀ pcid mp data isCommand isLast pdus, 14 ≤ mp →
       SendPDataTF pcid mp data isCommand isLast = some pdus →
       ∀ pdu ∈ pdus, pdu.length ≤ mp) ∧
    (∀ pcid commandData datasetData,
       (SendDIMSEResponseWithDataset pcid commandData datasetData).map List.length =
         if datasetData.length > 0 then
           [12 + commandData.length, 12 + datasetData.length]
         else [12 + commandData.length]) := by
  constructor
  · intro pcid mp data isCommand isLast pdus hmp h
    exact sendPDataTFLoop_length pcid mp isCommand isLast hmp data.length data pdus h
  · intro pcid commandData datasetData
    unfold SendDIMSEResponseWithDataset
    by_cases hds : datasetData.length > 0
    · rw [if_pos hds, if_pos hds]
      simp only [List.map_cons, List.map_nil, List.length_append, List.length_cons, u32be,
        List.length_nil, List.cons.injEq, and_true]
      refine ⟨by omega, by omega⟩
    · rw [if_neg hds, if_neg hds]
      simp only [List.map_cons, List.map_nil, List.length_append, List.length_cons, u32be,
        List.length_nil, List.cons.injEq, and_true]
      omega

theorem claim_C3_amended_witness :
    ∀ pdu ∈ [[0x04, 0x00, 0, 0, 0, 8, 0, 0, 0, 4, 1, 3, 10, 20]],
      List.length pdu ≤ 14 := by
  intro pdu hm
  refine claim_C3_amended.1 1 14 [10, 20] true true _ (by decide) ?_ pdu hm
  decide

/-- C4: the code at the failing input.  A command split into a non-last
PDV `[1, 2]` (header 0x01) and a last PDV `[3, 4]` (header 0x03): the
first payload is appended to the command buffer, but the last-fragment
branch *overwrites* the buffer and hands only `[3, 4]` — not the
concatenation `[1, 2, 3, 4]` — to the command decoder. -/
theorem claim_C4_code_behaviour :
    stateAfterFirstFragment.commandData = [1, 2] ∧
    (HandleDIMSEMessage quietHandler acceptAnyDec noTSLookup stateAfterFirstFragment
        1 0x03 [3, 4]).2.2 = [.decodeCommandBytes [3, 4]] ∧
    ([3, 4] : List Nat) ≠ [1, 2] ++ [3, 4] := by
  decide

/-- C8 counterexample: with no handler registered (empty registry) the
service returns the "unsupported DIMSE command" error and sends *nothing*;
with a handler that fails it returns the wrapped handler error and sends
nothing.  No CommandField-specific response with Status 0xC000 is emitted,
refuting the claim. -/
theorem claim_C8_counterexample :
    processCompleteMessage (registryAsHandler []) noTSLookup echoReqState 1 =
      (.error "unsupported DIMSE command", []) ∧
    processCompleteMessage (.single fun _ _ _ => .error "boom") noTSLookup echoReqState 1 =
      (.error "service handler failed: boom", []) := by
  constructor <;> rfl

/-- C8 (amended): when the service handler returns an error, or no handler
is registered for the command field, `processCompleteMessage` propagates
the error and emits no response whatsoever (the connection handling then
terminates); `services.CreateErrorResponse` builds a response with the
response command field, CommandDataSetType 0x0101 and the given status,
but the receive path never invokes it. -/
theorem claim_C8_amended :
    (∀ (f : DMessage → List Nat → MessageContext →
         Except String (DMessage × Option Dataset)) tsLookup st pcid,
       (∀ m d meta, ∃ e, f m d meta = .error e) →
       (processCompleteMessage (.single f) tsLookup st pcid).2 = [] ∧
       (processCompleteMessage (.single f) tsLookup st pcid).1 ≠ .ok ()) ∧
    (∀ handlers tsLookup st pcid msg, st.currentMsg = some msg →
       lookupHandler handlers msg.commandField = none →
       processCompleteMessage (registryAsHandler handlers) tsLookup st pcid =
         (.error "unsupported DIMSE command", [])) ∧
    (∀ req status, (CreateErrorResponse req status).commandField =
         req.commandField ||| 0x8000 ∧
       (CreateErrorResponse req status).commandDataSetType = 0x0101 ∧
       (CreateErrorResponse req status).status = status ∧
       (CreateErrorResponse req status).messageIDBeingRespondedTo = req.messageID) := by
  refine ⟨?_, ?_, ?_⟩
  · intro f tsLookup st pcid hf
    unfold processCompleteMessage
    cases hcur : st.currentMsg with
    | none => exact ⟨rfl, by simp⟩
    | some msg =>
        simp only
        obtain ⟨e, he⟩ := hf _ st.datasetData _
        rw [he]
        exact ⟨rfl, by simp⟩
  · intro handlers tsLookup st pcid msg hcur hlk
    unfold processCompleteMessage
    rw [hcur]
    simp only [registryAsHandler]
    rw [hlk]
    rfl
  · intro req status
    exact ⟨rfl, rfl, rfl, rfl⟩

theorem claim_C8_amended_witness :
    (processCompleteMessage (.single fun _ _ _ => .error "boom") noTSLookup echoReqState 1).2
        = [] ∧
    processCompleteMessage (registryAsHandler []) noTSLookup echoReqState 1 =
      (.error "unsupported DIMSE command", []) := by
  constructor
  · exact (claim_C8_amended.1 _ noTSLookup echoReqState 1
      (fun m d meta => ⟨"boom", rfl⟩)).1
  · exact claim_C8_amended.2.1 [] noTSLookup echoReqState 1 echoReqMsg rfl rfl

/- ### Fragmentation round-trip (C2) -/

theorem extractPDVsLoop_nil (fuel : Nat) : extractPDVsLoop fuel [] = .ok [] := by
  cases fuel <;> rfl

theorem sendPDataTFLoop_fuel (pcid mp : Nat) (c l : Bool) (hmp : 14 ≤ mp) :
    ∀ fuel₁ fuel₂ data, data.length ≤ fuel₁ → data.length ≤ fuel₂ →
      sendPDataTFLoop pcid mp c l fuel₁ data = sendPDataTFLoop pcid mp c l fuel₂ data := by
  intro fuel₁
  induction fuel₁ with
  | zero =>
      intro fuel₂ data hlen _
      have : data = [] := List.eq_nil_of_length_eq_zero (Nat.le_zero.mp hlen)
      subst this
      cases fuel₂ <;> rfl
  | succ n ih =>
      intro fuel₂ data hlen₁ hlen₂
      cases data with
      | nil => cases fuel₂ <;> rfl
      | cons a as =>
          cases fuel₂ with
          | zero => simp at hlen₂
          | succ j =>
              simp only [sendPDataTFLoop]
              have hC1 : 1 ≤ (if decide (as.length + 1 ≤ mp - 12)
                  then as.length + 1 else mp - 12) := by
                split
                · simp
                · omega
              rw [ih j ((a :: as).drop (if decide ((a :: as).length ≤ mp - 12)
                  then (a :: as).length else mp - 12))
                (by simp only [List.length_drop, List.length_cons] at hlen₁ ⊢; omega)
                (by simp only [List.length_drop, List.length_cons] at hlen₂ ⊢; omega)]

theorem receivePDataPDVsLoop_fuel :
    ∀ fuel₁ fuel₂ stream, stream.length < fuel₁ → stream.length < fuel₂ →
      receivePDataPDVsLoop fuel₁ stream = receivePDataPDVsLoop fuel₂ stream := by
  intro fuel₁
  induction fuel₁ with
  | zero =>
      intro fuel₂ stream hlen₁ _
      exact absurd hlen₁ (by omega)
  | succ n ih =>
      intro fuel₂ stream hlen₁ hlen₂
      cases fuel₂ with
      | zero => exact absurd hlen₂ (by omega)
      | succ j =>
          simp only [receivePDataPDVsLoop]
          split_ifs with h0 h6 ht hov
          · rfl
          · rfl
          · rfl
          · rfl
          · rw [ih j (stream.drop (6 + readU32be (stream.drop 2)))
              (by simp only [List.length_drop]; omega)
              (by simp only [List.length_drop]; omega)]

theorem extractPDVs_single (pcid mch : Nat) (cb : List Nat)
    (h32 : cb.length + 2 < 4294967296) :
    extractPDVs (u32be (cb.length + 2) ++ [pcid, mch] ++ cb) =
      .ok [{ pcid := pcid, mch := mch, payload := cb }] := by
  have hlen : (u32be (cb.length + 2) ++ [pcid, mch] ++ cb).length = 6 + cb.length := by
    simp [u32be]
    omega
  unfold extractPDVs
  rw [hlen]
  simp only [extractPDVsLoop]
  have hne : u32be (cb.length + 2) ++ [pcid, mch] ++ cb ≠ [] := by
    intro h
    have := congrArg List.length h
    rw [hlen] at this
    simp at this
  rw [if_neg hne]
  rw [hlen]
  have hread : readU32be (u32be (cb.length + 2) ++ [pcid, mch] ++ cb) = cb.length + 2 := by
    rw [List.append_assoc]
    exact readU32be_u32be _ _ h32
  rw [hread]
  rw [if_neg (by omega), if_neg (by omega), if_neg (by omega)]
  have hdropAll : (u32be (cb.length + 2) ++ [pcid, mch] ++ cb).drop (4 + (cb.length + 2))
      = [] := by
    apply List.drop_eq_nil_of_le
    rw [hlen]
    omega
  rw [hdropAll, extractPDVsLoop_nil]
  have hgetD4 : (u32be (cb.length + 2) ++ [pcid, mch] ++ cb).getD 4 0 = pcid := by
    simp [u32be, List.getD, List.append_assoc]
  have hgetD5 : (u32be (cb.length + 2) ++ [pcid, mch] ++ cb).getD 5 0 = mch := by
    simp [u32be, List.getD, List.append_assoc]
  have hdrop6 : (u32be (cb.length + 2) ++ [pcid, mch] ++ cb).drop 6 = cb := by
    apply List.drop_left'
    simp [u32be]
  rw [hgetD4, hgetD5, hdrop6]
  have htake : cb.take (cb.length + 2 - 2) = cb := by
    simp
  rw [htake]
  rfl

/-- Receiving one well-formed P-DATA-TF PDU holding a single PDV followed
by more stream bytes yields that PDV in front of the rest's PDVs. -/
theorem receive_step (pcid mch : Nat) (cb rest : List Nat)
    (h32 : cb.length + 6 < 4294967296) {fr : List Pdv}
    (hrest : receivePDataPDVs rest = .ok fr) :
    receivePDataPDVs (([0x04, 0x00] ++ u32be (6 + cb.length) ++
        (u32be (cb.length + 2) ++ [pcid, mch] ++ cb)) ++ rest) =
      .ok ({ pcid := pcid, mch := mch, payload := cb } :: fr) := by
  set pdvr := u32be (cb.length + 2) ++ [pcid, mch] ++ cb with hpdvr
  have hpdvrLen : pdvr.length = 6 + cb.length := by
    simp [hpdvr, u32be]
    omega
  set stream := ([0x04, 0x00] ++ u32be (6 + cb.length) ++ pdvr) ++ rest with hstream
  have hstreamLen : stream.length = 12 + cb.length + rest.length := by
    simp [hstream, hpdvr, u32be]
    omega
  have hcall : receivePDataPDVs stream = receivePDataPDVsLoop (stream.length + 1) stream :=
    rfl
  rw [hcall, hstreamLen]
  simp only [receivePDataPDVsLoop]
  have hne : stream ≠ [] := by
    intro h
    have := congrArg List.length h
    rw [hstreamLen] at this
    simp at this
  rw [if_neg hne]
  have h6 : ¬ stream.length < 6 := by
    rw [hstreamLen]
    omega
  rw [if_neg h6]
  have hgetD0 : stream.getD 0 0 = 0x04 := by
    rw [hstream]
    rfl
  rw [hgetD0]
  have hdrop2 : stream.drop 2 = u32be (6 + cb.length) ++ (pdvr ++ rest) := by
    rw [hstream]
    simp [List.append_assoc]
  have hread : readU32be (stream.drop 2) = 6 + cb.length := by
    rw [hdrop2]
    exact readU32be_u32be _ _ (by omega)
  rw [hread]
  rw [if_neg (by simp : ¬ (0x04 : Nat) ≠ 0x04)]
  have hov : ¬ stream.length < 6 + (6 + cb.length) := by
    rw [hstreamLen]
    omega
  rw [if_neg hov]
  have hsplit : stream = ([0x04, 0x00] ++ u32be (6 + cb.length)) ++ (pdvr ++ rest) := by
    rw [hstream, List.append_assoc]
  have hdrop6 : stream.drop 6 = pdvr ++ rest := by
    rw [hsplit]
    apply List.drop_left'
    simp [u32be]
  have htake : (stream.drop 6).take (6 + cb.length) = pdvr := by
    rw [hdrop6]
    exact List.take_left' hpdvrLen
  rw [htake]
  have hext : extractPDVs pdvr = .ok [{ pcid := pcid, mch := mch, payload := cb }] := by
    rw [hpdvr]
    exact extractPDVs_single pcid mch cb (by omega)
  rw [hext]
  have hdropPDU : stream.drop (6 + (6 + cb.length)) = rest := by
    rw [hstream]
    apply List.drop_left'
    simp [hpdvrLen, u32be]
    omega
  rw [hdropPDU]
  have hfuel : receivePDataPDVsLoop (12 + cb.length + rest.length) rest =
      receivePDataPDVsLoop (rest.length + 1) rest := by
    apply receivePDataPDVsLoop_fuel
    · omega
    · omega
  rw [hfuel]
  rw [show receivePDataPDVsLoop (rest.length + 1) rest = receivePDataPDVs rest from rfl, hrest]
  rfl

theorem sendPDataTFLoop_nil (pcid mp : Nat) (c l : Bool) (fuel : Nat) :
    sendPDataTFLoop pcid mp c l fuel [] = some [] := by
  cases fuel <;> rfl

theorem sendPDataTFLoop_cons_last (pcid mp : Nat) (c : Bool) (fuel a : Nat) (as : List Nat)
    (hlast : (a :: as).length ≤ mp - 12) :
    sendPDataTFLoop pcid mp c true (fuel + 1) (a :: as) =
      some [[0x04, 0x00] ++ u32be (6 + (a :: as).length) ++
        (u32be ((a :: as).length + 2) ++ [pcid, (if c then 1 else 0) + 2] ++ (a :: as))] := by
  have hd : decide ((a :: as).length ≤ mp - 12) = true := decide_eq_true hlast
  have hlen : (u32be ((a :: as).length + 2) ++ [pcid, (if c then 1 else 0) + 2] ++
      (a :: as)).length = 6 + (a :: as).length := by
    simp [u32be]
    omega
  simp only [sendPDataTFLoop, hd, if_true, Bool.true_and, List.take_length, List.drop_length,
    sendPDataTFLoop_nil, Option.map_some', List.map_nil, hlen]

theorem sendPDataTFLoop_cons_more (pcid mp : Nat) (c : Bool) (fuel a : Nat) (as : List Nat)
    (hlast : ¬ (a :: as).length ≤ mp - 12) :
    sendPDataTFLoop pcid mp c true (fuel + 1) (a :: as) =
      (sendPDataTFLoop pcid mp c true fuel ((a :: as).drop (mp - 12))).map
        (([0x04, 0x00] ++ u32be (6 + (mp - 12)) ++
          (u32be ((mp - 12) + 2) ++ [pcid, if c then 1 else 0] ++
            (a :: as).take (mp - 12))) :: ·) := by
  have hd : decide ((a :: as).length ≤ mp - 12) = false := decide_eq_false hlast
  have htl : ((a :: as).take (mp - 12)).length = mp - 12 := by
    simp only [List.length_take]
    simp only [List.length_cons]
    simp only [List.length_cons] at hlast
    omega
  have hlen : (u32be ((mp - 12) + 2) ++ [pcid, if c then 1 else 0] ++
      ((a :: as).take (mp - 12))).length = 6 + (mp - 12) := by
    simp [u32be, htl]
    omega
  simp only [sendPDataTFLoop, hd, Bool.false_eq_true, Bool.false_and, if_false, Nat.add_zero,
    hlen]

/-- Core of C2: fragmentation by `SendPDataTF` followed by the receiver's
PDV extraction reconstructs the data, with message-control-header bit 1
set exactly on the final PDV. -/
theorem sendReceive_core (pcid mp : Nat) (c : Bool) (hmp : 14 ≤ mp)
    (h32 : mp < 4294967296) :
    ∀ n data, data.length ≤ n →
      ∃ pdus frags,
        SendPDataTF pcid mp data c true = some pdus ∧
        receivePDataPDVs pdus.flatten = .ok frags ∧
        (frags.map Pdv.payload).flatten = data ∧
        (∀ f ∈ frags.dropLast, f.mch.testBit 1 = false) ∧
        (∀ f ∈ frags.getLast?, f.mch.testBit 1 = true) := by
  intro n
  induction n with
  | zero =>
      intro data hlen
      have hdnil : data = [] := List.eq_nil_of_length_eq_zero (Nat.le_zero.mp hlen)
      subst hdnil
      exact ⟨[], [], rfl, rfl, rfl, by simp, by simp⟩
  | succ n ih =>
      intro data hlen
      cases data with
      | nil => exact ⟨[], [], rfl, rfl, rfl, by simp, by simp⟩
      | cons a as =>
          by_cases hlast : (a :: as).length ≤ mp - 12
          · -- single fragment: the whole payload fits
            have hsend : SendPDataTF pcid mp (a :: as) c true =
                some [[0x04, 0x00] ++ u32be (6 + (a :: as).length) ++
                  (u32be ((a :: as).length + 2) ++ [pcid, (if c then 1 else 0) + 2] ++
                    (a :: as))] := by
              unfold SendPDataTF
              rw [show (a :: as).length = as.length + 1 from rfl]
              exact sendPDataTFLoop_cons_last pcid mp c as.length a as hlast
            have h6 : (a :: as).length + 6 < 4294967296 := by
              simp only [List.length_cons] at hlast ⊢
              omega
            have hr := receive_step pcid ((if c then 1 else 0) + 2) (a :: as) [] h6
              (show receivePDataPDVs ([] : List Nat) = Except.ok ([] : List Pdv) from rfl)
            refine ⟨_,
              [{ pcid := pcid, mch := (if c then 1 else 0) + 2, payload := a :: as }],
              hsend, ?_, ?_, ?_, ?_⟩
            · simpa using hr
            · simp
            · simp
            · intro f hf
              simp only [List.getLast?_singleton, Option.mem_def, Option.some.injEq] at hf
              subst hf
              cases c
              · show Nat.testBit 2 1 = true
                decide
              · show Nat.testBit 3 1 = true
                decide
          · -- more fragments follow
            have hC2 : 2 ≤ mp - 12 := by omega
            have hlt : mp - 12 < (a :: as).length := by omega
            obtain ⟨pdus', frags', hsend', hrecv', hconcat', hdrop', hlast'⟩ :=
              ih ((a :: as).drop (mp - 12))
                (by
                  simp only [List.length_drop]
                  simp only [List.length_cons] at hlen ⊢
                  omega)
            have hfuel : sendPDataTFLoop pcid mp c true as.length
                ((a :: as).drop (mp - 12)) = some pdus' := by
              rw [sendPDataTFLoop_fuel pcid mp c true hmp as.length
                ((a :: as).drop (mp - 12)).length ((a :: as).drop (mp - 12))
                (by
                  simp only [List.length_drop]
                  simp only [List.length_cons]
                  omega) le_rfl]
              exact hsend'
            have htl : ((a :: as).take (mp - 12)).length = mp - 12 := by
              simp only [List.length_take]
              simp only [List.length_cons]
              simp only [List.length_cons] at hlast
              omega
            have hsend : SendPDataTF pcid mp (a :: as) c true =
                some (([0x04, 0x00] ++ u32be (6 + (mp - 12)) ++
                  (u32be ((mp - 12) + 2) ++ [pcid, if c then 1 else 0] ++
                    (a :: as).take (mp - 12))) :: pdus') := by
              unfold SendPDataTF
              rw [show (a :: as).length = as.length + 1 from rfl]
              rw [sendPDataTFLoop_cons_more pcid mp c as.length a as hlast, hfuel]
              rfl
            have hfragsne : frags' ≠ [] := by
              intro hnil
              rw [hnil] at hconcat'
              simp only [List.map_nil, List.flatten_nil] at hconcat'
              have := congrArg List.length hconcat'
              simp only [List.length_nil, List.length_drop] at this
              simp only [List.length_cons] at this hlast
              omega
            obtain ⟨b, bs, rfl⟩ := List.exists_cons_of_ne_nil hfragsne
            refine ⟨_,
              ({ pcid := pcid, mch := if c then 1 else 0, payload := (a :: as).take (mp - 12) }
                :: b :: bs),
              hsend, ?_, ?_, ?_, ?_⟩
            · have hr := receive_step pcid (if c then 1 else 0)
                ((a :: as).take (mp - 12)) pdus'.flatten
                (by rw [htl]; omega) hrecv'
              rw [htl] at hr
              simpa using hr
            · show (a :: as).take (mp - 12) ++ (List.map Pdv.payload (b :: bs)).flatten = a :: as
              rw [hconcat']
              exact List.take_append_drop _ _
            · intro f hf
              rw [List.dropLast_cons₂] at hf
              rcases List.mem_cons.mp hf with rfl | hmem
              · cases c
                · show Nat.testBit 0 1 = false
                  decide
                · show Nat.testBit 1 1 = false
                  decide
              · exact hdrop' f hmem
            · intro f hf
              rw [List.getLast?_cons_cons] at hf
              exact hlast' f hf

/-- C2: for any `data` and any `max_pdu ≥ 14`, splitting `data` into
P-DATA-TF PDUs with `SendPDataTF` and extracting the PDV payloads on the
receiving side (as `ReceiveDIMSEMessage` does) reconstructs exactly
`data`; the last extracted PDV has message-control-header bit 1 set and
all earlier PDVs have it clear. -/
theorem claim_C2_fragmentation_roundtrip (pcid mp : Nat) (isCommand : Bool)
    (data : List Nat) (hmp : 14 ≤ mp) (h32 : mp < 4294967296) :
    ∃ pdus frags,
      SendPDataTF pcid mp data isCommand true = some pdus ∧
      receivePDataPDVs pdus.flatten = .ok frags ∧
      (frags.map Pdv.payload).flatten = data ∧
      (∀ f ∈ frags.dropLast, f.mch.testBit 1 = false) ∧
      (∀ f ∈ frags.getLast?, f.mch.testBit 1 = true) :=
  sendReceive_core pcid mp isCommand hmp h32 data.length data le_rfl

theorem claim_C2_fragmentation_roundtrip_witness :
    ∃ pdus frags,
      SendPDataTF 1 14 [10, 20, 30] true true = some pdus ∧
      receivePDataPDVs pdus.flatten = .ok frags ∧
      (frags.map Pdv.payload).flatten = [10, 20, 30] ∧
      (∀ f ∈ frags.dropLast, f.mch.testBit 1 = false) ∧
      (∀ f ∈ frags.getLast?, f.mch.testBit 1 = true) :=
  claim_C2_fragmentation_roundtrip 1 14 true [10, 20, 30] (by decide) (by decide)

/- ### Command-set codec round trip (C5) -/

theorem u16le_length (n : Nat) : (u16le n).length = 2 := rfl

theorem u32le_length (n : Nat) : (u32le n).length = 4 := rfl

theorem readU16le_u16le_self (n : Nat) (h : n < 65536) : readU16le (u16le n) = n := by
  have := readU16le_u16le n [] h
  simpa using this

theorem padEven_length_le (pad : Nat) (s : List Nat) :
    (padEven pad s).length ≤ s.length + 1 := by
  unfold padEven
  split <;> simp

theorem elemB_length (g e : Nat) (v : List Nat) : (elemB g e v).length = 8 + v.length := by
  simp [elemB, u16le, u32le]
  omega

theorem ite_append_self {c : Prop} [Decidable c] (b x : List Nat) :
    (if c then b ++ x else b) = b ++ (if c then x else []) := by
  split <;> simp

theorem mem_ite_singleton {α : Type} {c : Prop} [Decidable c] {p x : α}
    (h : p ∈ if c then [x] else ([] : List α)) : p = x := by
  split at h
  · simpa using h
  · exact absurd h (List.not_mem_nil p)

theorem apply_elem_0000 (v : List Nat) (m : DMessage) :
    applyCommandElement 0 0 v m = m := rfl

theorem apply_elem_0002 (v : List Nat) (m : DMessage) :
    applyCommandElement 0 0x0002 v m =
      { m with affectedSOPClassUID := trimRightBytes [0, 32] v } := rfl

theorem apply_elem_0003 (v : List Nat) (m : DMessage) :
    applyCommandElement 0 0x0003 v m =
      { m with requestedSOPClassUID := trimRightBytes [0, 32] v } := rfl

theorem apply_elem_0100 (n : Nat) (m : DMessage) :
    applyCommandElement 0 0x0100 (u16le n) m =
      { m with commandField := readU16le (u16le n) } := rfl

theorem apply_elem_0110 (n : Nat) (m : DMessage) :
    applyCommandElement 0 0x0110 (u16le n) m =
      { m with messageID := readU16le (u16le n) } := rfl

theorem apply_elem_0120 (n : Nat) (m : DMessage) :
    applyCommandElement 0 0x0120 (u16le n) m =
      { m with messageIDBeingRespondedTo := readU16le (u16le n) } := rfl

theorem apply_elem_0600 (v : List Nat) (m : DMessage) :
    applyCommandElement 0 0x0600 v m =
      { m with moveDestination := trimRightBytes [0, 32] v } := rfl

theorem apply_elem_0700 (n : Nat) (m : DMessage) :
    applyCommandElement 0 0x0700 (u16le n) m =
      { m with priority := readU16le (u16le n) } := rfl

theorem apply_elem_0800 (n : Nat) (m : DMessage) :
    applyCommandElement 0 0x0800 (u16le n) m =
      { m with commandDataSetType := readU16le (u16le n) } := rfl

theorem apply_elem_0900 (n : Nat) (m : DMessage) :
    applyCommandElement 0 0x0900 (u16le n) m =
      { m with status := readU16le (u16le n) } := rfl

theorem apply_elem_1000 (v : List Nat) (m : DMessage) :
    applyCommandElement 0 0x1000 v m =
      { m with affectedSOPInstanceUID := trimRightBytes [0, 32] v } := rfl

theorem apply_elem_1020 (n : Nat) (m : DMessage) :
    applyCommandElement 0 0x1020 (u16le n) m =
      { m with numberOfRemainingSuboperations := some (readU16le (u16le n)) } := rfl

theorem apply_elem_1021 (n : Nat) (m : DMessage) :
    applyCommandElement 0 0x1021 (u16le n) m =
      { m with numberOfCompletedSuboperations := some (readU16le (u16le n)) } := rfl

theorem apply_elem_1022 (n : Nat) (m : DMessage) :
    applyCommandElement 0 0x1022 (u16le n) m =
      { m with numberOfFailedSuboperations := some (readU16le (u16le n)) } := rfl

theorem apply_elem_1023 (n : Nat) (m : DMessage) :
    applyCommandElement 0 0x1023 (u16le n) m =
      { m with numberOfWarningSuboperations := some (readU16le (u16le n)) } := rfl

theorem decodeCommandLoop_nil (fuel : Nat) (msg : DMessage) :
    decodeCommandLoop fuel [] msg = msg := by
  cases fuel <;> rfl

theorem decodeCommandLoop_step (fuel g e : Nat) (v rest : List Nat) (msg : DMessage)
    (hg : g < 65536) (he : e < 65536) (hv : v.length < 4294967296) :
    decodeCommandLoop (fuel + 1) (elemB g e v ++ rest) msg =
      decodeCommandLoop fuel rest (applyCommandElement g e v msg) := by
  have hdata : elemB g e v ++ rest =
      u16le g ++ (u16le e ++ (u32le v.length ++ (v ++ rest))) := by
    simp [elemB, List.append_assoc]
  have hlen : (elemB g e v ++ rest).length = 8 + v.length + rest.length := by
    simp [elemB, u16le, u32le]
    omega
  have hgrp : readU16le (elemB g e v ++ rest) = g := by
    rw [hdata]
    exact readU16le_u16le g _ hg
  have hdrop2 : (elemB g e v ++ rest).drop 2 = u16le e ++ (u32le v.length ++ (v ++ rest)) := by
    rw [hdata]
    exact List.drop_left' (by simp [u16le])
  have hele : readU16le ((elemB g e v ++ rest).drop 2) = e := by
    rw [hdrop2]
    exact readU16le_u16le e _ he
  have hdrop4 : (elemB g e v ++ rest).drop 4 = u32le v.length ++ (v ++ rest) := by
    rw [hdata, show u16le g ++ (u16le e ++ (u32le v.length ++ (v ++ rest))) =
      (u16le g ++ u16le e) ++ (u32le v.length ++ (v ++ rest)) from by
        simp [List.append_assoc]]
    exact List.drop_left' (by simp [u16le])
  have hlength : readU32le ((elemB g e v ++ rest).drop 4) = v.length := by
    rw [hdrop4]
    exact readU32le_u32le _ _ hv
  have hdrop8 : (elemB g e v ++ rest).drop 8 = v ++ rest := by
    rw [hdata, show u16le g ++ (u16le e ++ (u32le v.length ++ (v ++ rest))) =
      (u16le g ++ u16le e ++ u32le v.length) ++ (v ++ rest) from by
        simp [List.append_assoc]]
    exact List.drop_left' (by simp [u16le, u32le])
  have hvalue : ((elemB g e v ++ rest).drop 8).take v.length = v := by
    rw [hdrop8]
    exact List.take_left' rfl
  have hdropAll : (elemB g e v ++ rest).drop (8 + v.length) = rest :=
    List.drop_left' (elemB_length g e v)
  simp only [decodeCommandLoop]
  rw [hgrp, hele, hlength, hvalue, hdropAll]
  rw [if_neg (by rw [hlen]; omega), if_neg (by rw [hlen]; omega)]

theorem decodeCommandLoop_elems :
    ∀ (elems : List (Nat × List Nat)) (fuel : Nat) (msg : DMessage),
      (∀ p ∈ elems, p.1 < 65536 ∧ p.2.length < 4294967296) →
      ((elems.map fun p => elemB 0 p.1 p.2).flatten).length < fuel →
      decodeCommandLoop fuel ((elems.map fun p => elemB 0 p.1 p.2).flatten) msg =
        elems.foldl (fun m p => applyCommandElement 0 p.1 p.2 m) msg := by
  intro elems
  induction elems with
  | nil =>
      intro fuel msg _ _
      simpa using decodeCommandLoop_nil fuel msg
  | cons p ps ih =>
      intro fuel msg hb hfuel
      obtain ⟨e, v⟩ := p
      simp only [List.map_cons, List.flatten_cons] at hfuel ⊢
      have hbp := hb (e, v) (List.mem_cons_self _ _)
      cases fuel with
      | zero => exact absurd hfuel (by omega)
      | succ f =>
          rw [decodeCommandLoop_step f 0 e v _ msg (by decide) hbp.1 hbp.2]
          rw [ih f _ (fun q hq => hb q (List.mem_cons_of_mem _ hq))
            (by
              rw [List.length_append, elemB_length] at hfuel
              omega)]
          simp only [List.foldl_cons]

theorem AppendImplicitElement_elemB (buf : List Nat) (g e : Nat) (v : List Nat) :
    AppendImplicitElement buf g e v = buf ++ elemB g e v := by
  simp [AppendImplicitElement, elemB, List.append_assoc]

theorem flatten_map_ite_singleton (c : Prop) [Decidable c] (e : Nat) (v : List Nat) :
    ((if c then [(e, v)] else ([] : List (Nat × List Nat))).map
      (fun p => elemB 0 p.1 p.2)).flatten = if c then elemB 0 e v else [] := by
  split <;> simp

theorem cmdElems_bounds (msg : DMessage)
    (hascpL : msg.affectedSOPClassUID.length < 4294967295)
    (hrscpL : msg.requestedSOPClassUID.length < 4294967295)
    (hasipL : msg.affectedSOPInstanceUID.length < 4294967295)
    (hmdestL : msg.moveDestination.length < 4294967295) :
    ∀ p ∈ cmdElems msg, p.1 < 65536 ∧ p.2.length < 4294967296 := by
  intro p hp
  have hp0 := padEven_length_le 0 msg.affectedSOPClassUID
  have hp1 := padEven_length_le 0 msg.requestedSOPClassUID
  have hp2 := padEven_length_le 32 msg.moveDestination
  have hp3 := padEven_length_le 0 msg.affectedSOPInstanceUID
  simp only [cmdElems, List.mem_append] at hp
  rcases hp with ((((((((((((h | h) | h) | h) | h) | h) | h) | h) | h) | h) | h) | h) | h) | h
  · rw [mem_ite_singleton h]
    refine ⟨by norm_num, ?_⟩
    show (padEven 0 msg.affectedSOPClassUID).length < 4294967296
    omega
  · rw [mem_ite_singleton h]
    refine ⟨by norm_num, ?_⟩
    show (padEven 0 msg.requestedSOPClassUID).length < 4294967296
    omega
  · rw [List.mem_singleton] at h
    rw [h]
    refine ⟨by norm_num, ?_⟩
    show (u16le msg.commandField).length < 4294967296
    rw [u16le_length]
    decide
  · rw [mem_ite_singleton h]
    refine ⟨by norm_num, ?_⟩
    show (u16le msg.messageID).length < 4294967296
    rw [u16le_length]
    decide
  · rw [mem_ite_singleton h]
    refine ⟨by norm_num, ?_⟩
    show (u16le msg.messageIDBeingRespondedTo).length < 4294967296
    rw [u16le_length]
    decide
  · rw [mem_ite_singleton h]
    refine ⟨by norm_num, ?_⟩
    show (padEven 0x20 msg.moveDestination).length < 4294967296
    omega
  · rw [mem_ite_singleton h]
    refine ⟨by norm_num, ?_⟩
    show (u16le msg.priority).length < 4294967296
    rw [u16le_length]
    decide
  · rw [List.mem_singleton] at h
    rw [h]
    refine ⟨by norm_num, ?_⟩
    show (u16le msg.commandDataSetType).length < 4294967296
    rw [u16le_length]
    decide
  · rw [mem_ite_singleton h]
    refine ⟨by norm_num, ?_⟩
    show (u16le msg.status).length < 4294967296
    rw [u16le_length]
    decide
  · rw [mem_ite_singleton h]
    refine ⟨by norm_num, ?_⟩
    show (padEven 0 msg.affectedSOPInstanceUID).length < 4294967296
    omega
  · cases hnr : msg.numberOfRemainingSuboperations with
    | none =>
        rw [hnr] at h
        simp only [Option.elim_none] at h
        exact absurd h (List.not_mem_nil p)
    | some v =>
        rw [hnr] at h
        simp only [Option.elim_some, List.mem_singleton] at h
        rw [h]
        refine ⟨by norm_num, ?_⟩
        show (u16le v).length < 4294967296
        rw [u16le_length]
        decide
  · cases hnc : msg.numberOfCompletedSuboperations with
    | none =>
        rw [hnc] at h
        simp only [Option.elim_none] at h
        exact absurd h (List.not_mem_nil p)
    | some v =>
        rw [hnc] at h
        simp only [Option.elim_some, List.mem_singleton] at h
        rw [h]
        refine ⟨by norm_num, ?_⟩
        show (u16le v).length < 4294967296
        rw [u16le_length]
        decide
  · cases hnfa : msg.numberOfFailedSuboperations with
    | none =>
        rw [hnfa] at h
        simp only [Option.elim_none] at h
        exact absurd h (List.not_mem_nil p)
    | some v =>
        rw [hnfa] at h
        simp only [Option.elim_some, List.mem_singleton] at h
        rw [h]
        refine ⟨by norm_num, ?_⟩
        show (u16le v).length < 4294967296
        rw [u16le_length]
        decide
  · cases hnw : msg.numberOfWarningSuboperations with
    | none =>
        rw [hnw] at h
        simp only [Option.elim_none] at h
        exact absurd h (List.not_mem_nil p)
    | some v =>
        rw [hnw] at h
        simp only [Option.elim_some, List.mem_singleton] at h
        rw [h]
        refine ⟨by norm_num, ?_⟩
        show (u16le v).length < 4294967296
        rw [u16le_length]
        decide

theorem encodeCommandBody_eq (msg : DMessage) :
    encodeCommandBody msg = ((cmdElems msg).map fun p => elemB 0 p.1 p.2).flatten := by
  rcases msg with ⟨cf, mid, ascp, asip, rscp, pri, cdst, st, mrt, mdest, tsu, nr, nc, nf, nw⟩
  cases nr <;> cases nc <;> cases nf <;> cases nw <;>
    simp only [encodeCommandBody, cmdElems, AppendImplicitElement_elemB, ite_append_self,
      Option.elim_none, Option.elim_some, List.nil_append, List.map_append,
      List.flatten_append, flatten_map_ite_singleton, List.map_cons, List.map_nil,
      List.flatten_cons, List.flatten_nil, List.append_nil]

/-- C5 (counterexample): the command-set codec does not round-trip every
message value: a Move Destination with a trailing space is re-encoded
as-is but the decoder trims trailing NUL and space bytes, so
`DecodeCommand (EncodeCommand M) ≠ M` for `M` with
`MoveDestination = "A "`. -/
theorem claim_C5_counterexample :
    DecodeCommand (EncodeCommand { moveDestination := [65, 32] }) ≠
      ({ moveDestination := [65, 32] } : DMessage) := by
  decide

/-- C5 (amended): `DecodeCommand (EncodeCommand M) = M` holds for every
message whose in-memory-only `TransferSyntaxUID` field is empty, whose
numeric fields fit in 16 bits (they are `uint16` in Go), whose string
fields do not end in a NUL or space byte (the decoder right-trims those),
and whose string fields are shorter than the 32-bit length field can
express. -/
theorem claim_C5_amended (msg : DMessage)
    (htsu : msg.transferSyntaxUID = [])
    (hcf : msg.commandField < 65536)
    (hmid : msg.messageID < 65536)
    (hmrt : msg.messageIDBeingRespondedTo < 65536)
    (hpri : msg.priority < 65536)
    (hcdst : msg.commandDataSetType < 65536)
    (hst : msg.status < 65536)
    (hascp : ∀ b ∈ msg.affectedSOPClassUID.getLast?, b ≠ 0 ∧ b ≠ 32)
    (hrscp : ∀ b ∈ msg.requestedSOPClassUID.getLast?, b ≠ 0 ∧ b ≠ 32)
    (hasip : ∀ b ∈ msg.affectedSOPInstanceUID.getLast?, b ≠ 0 ∧ b ≠ 32)
    (hmdest : ∀ b ∈ msg.moveDestination.getLast?, b ≠ 0 ∧ b ≠ 32)
    (hascpL : msg.affectedSOPClassUID.length < 4294967295)
    (hrscpL : msg.requestedSOPClassUID.length < 4294967295)
    (hasipL : msg.affectedSOPInstanceUID.length < 4294967295)
    (hmdestL : msg.moveDestination.length < 4294967295)
    (hnr : ∀ v, msg.numberOfRemainingSuboperations = some v → v < 65536)
    (hnc : ∀ v, msg.numberOfCompletedSuboperations = some v → v < 65536)
    (hnfs : ∀ v, msg.numberOfFailedSuboperations = some v → v < 65536)
    (hnw : ∀ v, msg.numberOfWarningSuboperations = some v → v < 65536) :
    DecodeCommand (EncodeCommand msg) = msg := by
  have hB := encodeCommandBody_eq msg
  have hbounds := cmdElems_bounds msg hascpL hrscpL hasipL hmdestL
  have henc : EncodeCommand msg =
      elemB 0 0 (u32le (((cmdElems msg).map fun p => elemB 0 p.1 p.2).flatten).length) ++
        ((cmdElems msg).map fun p => elemB 0 p.1 p.2).flatten := by
    show AppendImplicitElement [] 0 0 (u32le (encodeCommandBody msg).length) ++
      encodeCommandBody msg = _
    rw [hB, AppendImplicitElement_elemB, List.nil_append]
  rw [henc]
  show decodeCommandLoop
      ((elemB 0 0 (u32le (((cmdElems msg).map fun p => elemB 0 p.1 p.2).flatten).length) ++
        ((cmdElems msg).map fun p => elemB 0 p.1 p.2).flatten).length + 1)
      (elemB 0 0 (u32le (((cmdElems msg).map fun p => elemB 0 p.1 p.2).flatten).length) ++
        ((cmdElems msg).map fun p => elemB 0 p.1 p.2).flatten)
      ⟨0, 0, [], [], [], 0, 257, 0, 0, [], [], none, none, none, none⟩ = msg
  rw [decodeCommandLoop_step
    ((elemB 0 0 (u32le (((cmdElems msg).map fun p => elemB 0 p.1 p.2).flatten).length) ++
      ((cmdElems msg).map fun p => elemB 0 p.1 p.2).flatten).length) 0 0
    (u32le (((cmdElems msg).map fun p => elemB 0 p.1 p.2).flatten).length)
    (((cmdElems msg).map fun p => elemB 0 p.1 p.2).flatten)
    ⟨0, 0, [], [], [], 0, 257, 0, 0, [], [], none, none, none, none⟩
    (by decide) (by decide) (by rw [u32le_length]; decide)]
  rw [apply_elem_0000]
  have hfuel : ((((cmdElems msg).map fun p => elemB 0 p.1 p.2).flatten)).length <
      (elemB 0 0 (u32le (((cmdElems msg).map fun p => elemB 0 p.1 p.2).flatten).length) ++
        ((cmdElems msg).map fun p => elemB 0 p.1 p.2).flatten).length := by
    rw [List.length_append, elemB_length, u32le_length]
    omega
  rw [decodeCommandLoop_elems (cmdElems msg) _
    ⟨0, 0, [], [], [], 0, 257, 0, 0, [], [], none, none, none, none⟩ hbounds hfuel]
  simp only [cmdElems, List.foldl_append]
  have h1 : List.foldl (fun m p => applyCommandElement 0 p.1 p.2 m)
      ⟨0, 0, [], [], [], 0, 257, 0, 0, [], [], none, none, none, none⟩
      (if msg.affectedSOPClassUID ≠ [] then
        [(0x0002, padEven 0 msg.affectedSOPClassUID)] else []) =
      ⟨0, 0, msg.affectedSOPClassUID, [], [], 0, 257, 0, 0, [], [],
        none, none, none, none⟩ := by
    by_cases h : msg.affectedSOPClassUID = []
    · rw [if_neg (not_not_intro h), List.foldl_nil, h]
    · rw [if_pos h, List.foldl_cons, List.foldl_nil]
      show applyCommandElement 0 0x0002 (padEven 0 msg.affectedSOPClassUID)
        ⟨0, 0, [], [], [], 0, 257, 0, 0, [], [], none, none, none, none⟩ = _
      rw [apply_elem_0002, trimRightBytes_padEven 0 _ (Or.inl rfl) hascp]
  have h2 : List.foldl (fun m p => applyCommandElement 0 p.1 p.2 m)
      ⟨0, 0, msg.affectedSOPClassUID, [], [], 0, 257, 0, 0, [], [],
        none, none, none, none⟩
      (if msg.requestedSOPClassUID ≠ [] then
        [(0x0003, padEven 0 msg.requestedSOPClassUID)] else []) =
      ⟨0, 0, msg.affectedSOPClassUID, [], msg.requestedSOPClassUID, 0, 257, 0, 0, [], [],
        none, none, none, none⟩ := by
    by_cases h : msg.requestedSOPClassUID = []
    · rw [if_neg (not_not_intro h), List.foldl_nil, h]
    · rw [if_pos h, List.foldl_cons, List.foldl_nil]
      show applyCommandElement 0 0x0003 (padEven 0 msg.requestedSOPClassUID)
        ⟨0, 0, msg.affectedSOPClassUID, [], [], 0, 257, 0, 0, [], [],
          none, none, none, none⟩ = _
      rw [apply_elem_0003, trimRightBytes_padEven 0 _ (Or.inl rfl) hrscp]
  have h3 : List.foldl (fun m p => applyCommandElement 0 p.1 p.2 m)
      ⟨0, 0, msg.affectedSOPClassUID, [], msg.requestedSOPClassUID, 0, 257, 0, 0, [], [],
        none, none, none, none⟩
      [(0x0100, u16le msg.commandField)] =
      ⟨msg.commandField, 0, msg.affectedSOPClassUID, [], msg.requestedSOPClassUID, 0, 257,
        0, 0, [], [], none, none, none, none⟩ := by
    rw [List.foldl_cons, List.foldl_nil]
    show applyCommandElement 0 0x0100 (u16le msg.commandField)
      ⟨0, 0, msg.affectedSOPClassUID, [], msg.requestedSOPClassUID, 0, 257, 0, 0, [], [],
        none, none, none, none⟩ = _
    rw [apply_elem_0100, readU16le_u16le_self _ hcf]
  have h4 : List.foldl (fun m p => applyCommandElement 0 p.1 p.2 m)
      ⟨msg.commandField, 0, msg.affectedSOPClassUID, [], msg.requestedSOPClassUID, 0, 257,
        0, 0, [], [], none, none, none, none⟩
      (if msg.messageID ≠ 0 then [(0x0110, u16le msg.messageID)] else []) =
      ⟨msg.commandField, msg.messageID, msg.affectedSOPClassUID, [],
        msg.requestedSOPClassUID, 0, 257, 0, 0, [], [], none, none, none, none⟩ := by
    by_cases h : msg.messageID = 0
    · rw [if_neg (not_not_intro h), List.foldl_nil, h]
    · rw [if_pos h, List.foldl_cons, List.foldl_nil]
      show applyCommandElement 0 0x0110 (u16le msg.messageID)
        ⟨msg.commandField, 0, msg.affectedSOPClassUID, [], msg.requestedSOPClassUID, 0,
          257, 0, 0, [], [], none, none, none, none⟩ = _
      rw [apply_elem_0110, readU16le_u16le_self _ hmid]
  have h5 : List.foldl (fun m p => applyCommandElement 0 p.1 p.2 m)
      ⟨msg.commandField, msg.messageID, msg.affectedSOPClassUID, [],
        msg.requestedSOPClassUID, 0, 257, 0, 0, [], [], none, none, none, none⟩
      (if msg.messageIDBeingRespondedTo ≠ 0 then
        [(0x0120, u16le msg.messageIDBeingRespondedTo)] else []) =
      ⟨msg.commandField, msg.messageID, msg.affectedSOPClassUID, [],
        msg.requestedSOPClassUID, 0, 257, 0, msg.messageIDBeingRespondedTo, [], [],
        none, none, none, none⟩ := by
    by_cases h : msg.messageIDBeingRespondedTo = 0
    · rw [if_neg (not_not_intro h), List.foldl_nil, h]
    · rw [if_pos h, List.foldl_cons, List.foldl_nil]
      show applyCommandElement 0 0x0120 (u16le msg.messageIDBeingRespondedTo)
        ⟨msg.commandField, msg.messageID, msg.affectedSOPClassUID, [],
          msg.requestedSOPClassUID, 0, 257, 0, 0, [], [], none, none, none, none⟩ = _
      rw [apply_elem_0120, readU16le_u16le_self _ hmrt]
  have h6 : List.foldl (fun m p => applyCommandElement 0 p.1 p.2 m)
      ⟨msg.commandField, msg.messageID, msg.affectedSOPClassUID, [],
        msg.requestedSOPClassUID, 0, 257, 0, msg.messageIDBeingRespondedTo, [], [],
        none, none, none, none⟩
      (if msg.moveDestination ≠ [] then
        [(0x0600, padEven 0x20 msg.moveDestination)] else []) =
      ⟨msg.commandField, msg.messageID, msg.affectedSOPClassUID, [],
        msg.requestedSOPClassUID, 0, 257, 0, msg.messageIDBeingRespondedTo,
        msg.moveDestination, [], none, none, none, none⟩ := by
    by_cases h : msg.moveDestination = []
    · rw [if_neg (not_not_intro h), List.foldl_nil, h]
    · rw [if_pos h, List.foldl_cons, List.foldl_nil]
      show applyCommandElement 0 0x0600 (padEven 0x20 msg.moveDestination)
        ⟨msg.commandField, msg.messageID, msg.affectedSOPClassUID, [],
          msg.requestedSOPClassUID, 0, 257, 0, msg.messageIDBeingRespondedTo, [], [],
          none, none, none, none⟩ = _
      rw [apply_elem_0600, trimRightBytes_padEven 0x20 _ (Or.inr rfl) hmdest]
  have h7 : List.foldl (fun m p => applyCommandElement 0 p.1 p.2 m)
      ⟨msg.commandField, msg.messageID, msg.affectedSOPClassUID, [],
        msg.requestedSOPClassUID, 0, 257, 0, msg.messageIDBeingRespondedTo,
        msg.moveDestination, [], none, none, none, none⟩
      (if msg.priority ≠ 0 then [(0x0700, u16le msg.priority)] else []) =
      ⟨msg.commandField, msg.messageID, msg.affectedSOPClassUID, [],
        msg.requestedSOPClassUID, msg.priority, 257, 0, msg.messageIDBeingRespondedTo,
        msg.moveDestination, [], none, none, none, none⟩ := by
    by_cases h : msg.priority = 0
    · rw [if_neg (not_not_intro h), List.foldl_nil, h]
    · rw [if_pos h, List.foldl_cons, List.foldl_nil]
      show applyCommandElement 0 0x0700 (u16le msg.priority)
        ⟨msg.commandField, msg.messageID, msg.affectedSOPClassUID, [],
          msg.requestedSOPClassUID, 0, 257, 0, msg.messageIDBeingRespondedTo,
          msg.moveDestination, [], none, none, none, none⟩ = _
      rw [apply_elem_0700, readU16le_u16le_self _ hpri]
  have h8 : List.foldl (fun m p => applyCommandElement 0 p.1 p.2 m)
      ⟨msg.commandField, msg.messageID, msg.affectedSOPClassUID, [],
        msg.requestedSOPClassUID, msg.priority, 257, 0, msg.messageIDBeingRespondedTo,
        msg.moveDestination, [], none, none, none, none⟩
      [(0x0800, u16le msg.commandDataSetType)] =
      ⟨msg.commandField, msg.messageID, msg.affectedSOPClassUID, [],
        msg.requestedSOPClassUID, msg.priority, msg.commandDataSetType, 0,
        msg.messageIDBeingRespondedTo, msg.moveDestination, [],
        none, none, none, none⟩ := by
    rw [List.foldl_cons, List.foldl_nil]
    show applyCommandElement 0 0x0800 (u16le msg.commandDataSetType)
      ⟨msg.commandField, msg.messageID, msg.affectedSOPClassUID, [],
        msg.requestedSOPClassUID, msg.priority, 257, 0, msg.messageIDBeingRespondedTo,
        msg.moveDestination, [], none, none, none, none⟩ = _
    rw [apply_elem_0800, readU16le_u16le_self _ hcdst]
  have h9 : List.foldl (fun m p => applyCommandElement 0 p.1 p.2 m)
      ⟨msg.commandField, msg.messageID, msg.affectedSOPClassUID, [],
        msg.requestedSOPClassUID, msg.priority, msg.commandDataSetType, 0,
        msg.messageIDBeingRespondedTo, msg.moveDestination, [],
        none, none, none, none⟩
      (if msg.status ≠ 0 then [(0x0900, u16le msg.status)] else []) =
      ⟨msg.commandField, msg.messageID, msg.affectedSOPClassUID, [],
        msg.requestedSOPClassUID, msg.priority, msg.commandDataSetType, msg.status,
        msg.messageIDBeingRespondedTo, msg.moveDestination, [],
        none, none, none, none⟩ := by
    by_cases h : msg.status = 0
    · rw [if_neg (not_not_intro h), List.foldl_nil, h]
    · rw [if_pos h, List.foldl_cons, List.foldl_nil]
      show applyCommandElement 0 0x0900 (u16le msg.status)
        ⟨msg.commandField, msg.messageID, msg.affectedSOPClassUID, [],
          msg.requestedSOPClassUID, msg.priority, msg.commandDataSetType, 0,
          msg.messageIDBeingRespondedTo, msg.moveDestination, [],
          none, none, none, none⟩ = _
      rw [apply_elem_0900, readU16le_u16le_self _ hst]
  have h10 : List.foldl (fun m p => applyCommandElement 0 p.1 p.2 m)
      ⟨msg.commandField, msg.messageID, msg.affectedSOPClassUID, [],
        msg.requestedSOPClassUID, msg.priority, msg.commandDataSetType, msg.status,
        msg.messageIDBeingRespondedTo, msg.moveDestination, [],
        none, none, none, none⟩
      (if msg.affectedSOPInstanceUID ≠ [] then
        [(0x1000, padEven 0 msg.affectedSOPInstanceUID)] else []) =
      ⟨msg.commandField, msg.messageID, msg.affectedSOPClassUID,
        msg.affectedSOPInstanceUID, msg.requestedSOPClassUID, msg.priority,
        msg.commandDataSetType, msg.status, msg.messageIDBeingRespondedTo,
        msg.moveDestination, [], none, none, none, none⟩ := by
    by_cases h : msg.affectedSOPInstanceUID = []
    · rw [if_neg (not_not_intro h), List.foldl_nil, h]
    · rw [if_pos h, List.foldl_cons, List.foldl_nil]
      show applyCommandElement 0 0x1000 (padEven 0 msg.affectedSOPInstanceUID)
        ⟨msg.commandField, msg.messageID, msg.affectedSOPClassUID, [],
          msg.requestedSOPClassUID, msg.priority, msg.commandDataSetType, msg.status,
          msg.messageIDBeingRespondedTo, msg.moveDestination, [],
          none, none, none, none⟩ = _
      rw [apply_elem_1000, trimRightBytes_padEven 0 _ (Or.inl rfl) hasip]
  have h11 : List.foldl (fun m p => applyCommandElement 0 p.1 p.2 m)
      ⟨msg.commandField, msg.messageID, msg.affectedSOPClassUID,
        msg.affectedSOPInstanceUID, msg.requestedSOPClassUID, msg.priority,
        msg.commandDataSetType, msg.status, msg.messageIDBeingRespondedTo,
        msg.moveDestination, [], none, none, none, none⟩
      (msg.numberOfRemainingSuboperations.elim [] fun v => [(0x1020, u16le v)]) =
      ⟨msg.commandField, msg.messageID, msg.affectedSOPClassUID,
        msg.affectedSOPInstanceUID, msg.requestedSOPClassUID, msg.priority,
        msg.commandDataSetType, msg.status, msg.messageIDBeingRespondedTo,
        msg.moveDestination, [], msg.numberOfRemainingSuboperations,
        none, none, none⟩ := by
    cases hnr' : msg.numberOfRemainingSuboperations with
    | none => rfl
    | some v =>
        show applyCommandElement 0 0x1020 (u16le v)
          ⟨msg.commandField, msg.messageID, msg.affectedSOPClassUID,
            msg.affectedSOPInstanceUID, msg.requestedSOPClassUID, msg.priority,
            msg.commandDataSetType, msg.status, msg.messageIDBeingRespondedTo,
            msg.moveDestination, [], none, none, none, none⟩ = _
        rw [apply_elem_1020, readU16le_u16le_self v (hnr v hnr')]
  have h12 : List.foldl (fun m p => applyCommandElement 0 p.1 p.2 m)
      ⟨msg.commandField, msg.messageID, msg.affectedSOPClassUID,
        msg.affectedSOPInstanceUID, msg.requestedSOPClassUID, msg.priority,
        msg.commandDataSetType, msg.status, msg.messageIDBeingRespondedTo,
        msg.moveDestination, [], msg.numberOfRemainingSuboperations,
        none, none, none⟩
      (msg.numberOfCompletedSuboperations.elim [] fun v => [(0x1021, u16le v)]) =
      ⟨msg.commandField, msg.messageID, msg.affectedSOPClassUID,
        msg.affectedSOPInstanceUID, msg.requestedSOPClassUID, msg.priority,
        msg.commandDataSetType, msg.status, msg.messageIDBeingRespondedTo,
        msg.moveDestination, [], msg.numberOfRemainingSuboperations,
        msg.numberOfCompletedSuboperations, none, none⟩ := by
    cases hnc' : msg.numberOfCompletedSuboperations with
    | none => rfl
    | some v =>
        show applyCommandElement 0 0x1021 (u16le v)
          ⟨msg.commandField, msg.messageID, msg.affectedSOPClassUID,
            msg.affectedSOPInstanceUID, msg.requestedSOPClassUID, msg.priority,
            msg.commandDataSetType, msg.status, msg.messageIDBeingRespondedTo,
            msg.moveDestination, [], msg.numberOfRemainingSuboperations,
            none, none, none⟩ = _
        rw [apply_elem_1021, readU16le_u16le_self v (hnc v hnc')]
  have h13 : List.foldl (fun m p => applyCommandElement 0 p.1 p.2 m)
      ⟨msg.commandField, msg.messageID, msg.affectedSOPClassUID,
        msg.affectedSOPInstanceUID, msg.requestedSOPClassUID, msg.priority,
        msg.commandDataSetType, msg.status, msg.messageIDBeingRespondedTo,
        msg.moveDestination, [], msg.numberOfRemainingSuboperations,
        msg.numberOfCompletedSuboperations, none, none⟩
      (msg.numberOfFailedSuboperations.elim [] fun v => [(0x1022, u16le v)]) =
      ⟨msg.commandField, msg.messageID, msg.affectedSOPClassUID,
        msg.affectedSOPInstanceUID, msg.requestedSOPClassUID, msg.priority,
        msg.commandDataSetType, msg.status, msg.messageIDBeingRespondedTo,
        msg.moveDestination, [], msg.numberOfRemainingSuboperations,
        msg.numberOfCompletedSuboperations, msg.numberOfFailedSuboperations,
        none⟩ := by
    cases hnf' : msg.numberOfFailedSuboperations with
    | none => rfl
    | some v =>
        show applyCommandElement 0 0x1022 (u16le v)
          ⟨msg.commandField, msg.messageID, msg.affectedSOPClassUID,
            msg.affectedSOPInstanceUID, msg.requestedSOPClassUID, msg.priority,
            msg.commandDataSetType, msg.status, msg.messageIDBeingRespondedTo,
            msg.moveDestination, [], msg.numberOfRemainingSuboperations,
            msg.numberOfCompletedSuboperations, none, none⟩ = _
        rw [apply_elem_1022, readU16le_u16le_self v (hnfs v hnf')]
  have h14 : List.foldl (fun m p => applyCommandElement 0 p.1 p.2 m)
      ⟨msg.commandField, msg.messageID, msg.affectedSOPClassUID,
        msg.affectedSOPInstanceUID, msg.requestedSOPClassUID, msg.priority,
        msg.commandDataSetType, msg.status, msg.messageIDBeingRespondedTo,
        msg.moveDestination, [], msg.numberOfRemainingSuboperations,
        msg.numberOfCompletedSuboperations, msg.numberOfFailedSuboperations,
        none⟩
      (msg.numberOfWarningSuboperations.elim [] fun v => [(0x1023, u16le v)]) =
      ⟨msg.commandField, msg.messageID, msg.affectedSOPClassUID,
        msg.affectedSOPInstanceUID, msg.requestedSOPClassUID, msg.priority,
        msg.commandDataSetType, msg.status, msg.messageIDBeingRespondedTo,
        msg.moveDestination, [], msg.numberOfRemainingSuboperations,
        msg.numberOfCompletedSuboperations, msg.numberOfFailedSuboperations,
        msg.numberOfWarningSuboperations⟩ := by
    cases hnw' : msg.numberOfWarningSuboperations with
    | none => rfl
    | some v =>
        show applyCommandElement 0 0x1023 (u16le v)
          ⟨msg.commandField, msg.messageID, msg.affectedSOPClassUID,
            msg.affectedSOPInstanceUID, msg.requestedSOPClassUID, msg.priority,
            msg.commandDataSetType, msg.status, msg.messageIDBeingRespondedTo,
            msg.moveDestination, [], msg.numberOfRemainingSuboperations,
            msg.numberOfCompletedSuboperations, msg.numberOfFailedSuboperations,
            none⟩ = _
        rw [apply_elem_1023, readU16le_u16le_self v (hnw v hnw')]
  rw [h1, h2, h3, h4, h5, h6, h7, h8, h9, h10, h11, h12, h13, h14, ← htsu]

theorem claim_C5_amended_witness :
    DecodeCommand (EncodeCommand
      (⟨0x8030, 7, [49, 46, 50], [], [], 0, 257, 0, 0, [], [],
        some 3, none, none, none⟩ : DMessage)) =
    ⟨0x8030, 7, [49, 46, 50], [], [], 0, 257, 0, 0, [], [],
      some 3, none, none, none⟩ :=
  claim_C5_amended _ rfl (by decide) (by decide) (by decide) (by decide) (by decide)
    (by decide)
    (by intro b hb; simp at hb; omega)
    (by intro b hb; simp at hb)
    (by intro b hb; simp at hb)
    (by intro b hb; simp at hb)
    (by decide) (by decide) (by decide) (by decide)
    (fun v hv => by simp at hv; omega)
    (fun v hv => by simp at hv)
    (fun v hv => by simp at hv)
    (fun v hv => by simp at hv)

/- ### Dataset codec round trip (C6) -/

theorem mem_of_mem_getLast {l : List Nat} {b : Nat} (h : b ∈ l.getLast?) : b ∈ l := by
  obtain ⟨hne, rfl⟩ := List.mem_getLast?_eq_getLast h
  exact List.getLast_mem hne

theorem tagLt_asymm {a b : DTag} (h : tagLt a b = true) : tagLt b a = false := by
  obtain ⟨g1, e1⟩ := a
  obtain ⟨g2, e2⟩ := b
  simp [tagLt] at h ⊢
  omega

theorem tagLt_ne {a b : DTag} (h : tagLt a b = true) : b ≠ a := by
  intro hEq
  rw [hEq] at h
  obtain ⟨g, e⟩ := a
  simp [tagLt] at h

theorem AddElement_append (acc : List (DTag × DElem)) (t : DTag) (e : DElem)
    (h : ∀ q ∈ acc, tagLt q.1 t = true) : AddElement acc t e = acc ++ [(t, e)] := by
  induction acc with
  | nil => rfl
  | cons q rest ih =>
      obtain ⟨t', e'⟩ := q
      have hq : tagLt t' t = true := h (t', e') (List.mem_cons_self _ _)
      simp only [AddElement]
      rw [if_neg (by rw [tagLt_asymm hq]; exact Bool.false_ne_true),
        if_neg (tagLt_ne hq),
        ih (fun q hq' => h q (List.mem_cons_of_mem _ hq'))]
      rfl

theorem padEven_length_even (pad : Nat) (s : List Nat) :
    (padEven pad s).length % 2 = 0 := by
  unfold padEven
  split
  · simp only [List.length_append, List.length_cons, List.length_nil]
    omega
  · omega

theorem parseImplicitLoop_nil (fuel : Nat) (acc : Dataset) :
    parseImplicitLoop fuel [] acc = acc := by
  cases fuel <;> rfl

theorem parseExplicitLoop_nil (fuel : Nat) (acc : Dataset) :
    parseExplicitLoop fuel [] acc = acc := by
  cases fuel <;> rfl

theorem elemB_split (g e : Nat) (v rest : List Nat) :
    elemB g e v ++ rest = u16le g ++ (u16le e ++ (u32le v.length ++ (v ++ rest))) := by
  simp [elemB, List.append_assoc]

theorem elemB_read_group (g e : Nat) (v rest : List Nat) (hg : g < 65536) :
    readU16le (elemB g e v ++ rest) = g := by
  rw [elemB_split]
  exact readU16le_u16le g _ hg

theorem elemB_read_element (g e : Nat) (v rest : List Nat) (he : e < 65536) :
    readU16le ((elemB g e v ++ rest).drop 2) = e := by
  rw [elemB_split, List.drop_left' (by simp [u16le])]
  exact readU16le_u16le e _ he

theorem elemB_read_length (g e : Nat) (v rest : List Nat) (hv : v.length < 4294967296) :
    readU32le ((elemB g e v ++ rest).drop 4) = v.length := by
  rw [elemB_split, show u16le g ++ (u16le e ++ (u32le v.length ++ (v ++ rest))) =
    (u16le g ++ u16le e) ++ (u32le v.length ++ (v ++ rest)) from by simp [List.append_assoc],
    List.drop_left' (by simp [u16le])]
  exact readU32le_u32le _ _ hv

theorem elemB_read_value (g e : Nat) (v rest : List Nat) :
    ((elemB g e v ++ rest).drop 8).take v.length = v := by
  rw [elemB_split, show u16le g ++ (u16le e ++ (u32le v.length ++ (v ++ rest))) =
    (u16le g ++ u16le e ++ u32le v.length) ++ (v ++ rest) from by simp [List.append_assoc],
    List.drop_left' (by simp [u16le, u32le])]
  exact List.take_left' rfl

theorem elemB_drop_all (g e : Nat) (v rest : List Nat) :
    (elemB g e v ++ rest).drop (8 + v.length) = rest :=
  List.drop_left' (elemB_length g e v)

theorem elemB_append_length (g e : Nat) (v rest : List Nat) :
    (elemB g e v ++ rest).length = 8 + v.length + rest.length := by
  rw [List.length_append, elemB_length]

theorem encodeImplicitElement_elemB (t : DTag) (e : DElem) :
    encodeImplicitElement t e =
      elemB t.group t.element (padEven 0x20 (encodeElementValue e)) := rfl

/-- Parsing back a space-padded encoded string value recovers the value
when it has no NUL bytes and neither starts nor ends with whitespace. -/
theorem parse_padEven_encode (s : List Nat)
    (hnul : ∀ b ∈ s, b ≠ 0)
    (hh : ∀ b ∈ s.head?, isSpaceByte b = false)
    (hl : ∀ b ∈ s.getLast?, isSpaceByte b = false) :
    parseElementValue (padEven 0x20 (trimRightBytes [0] s)) = ElemValue.vstr s := by
  have hs : trimRightBytes [0] s = s := by
    apply trimRightBytes_eq_self
    intro b hb hmem
    simp only [List.mem_singleton] at hmem
    exact hnul b (mem_of_mem_getLast hb) hmem
  rw [hs]
  unfold padEven
  split
  · have hne : s ++ [32] ≠ [] := by simp
    unfold parseElementValue
    rw [if_neg hne]
    rw [truncAtNul_eq_self _ (by
      intro b hb
      rcases List.mem_append.mp hb with h' | h'
      · exact hnul b h'
      · simp only [List.mem_singleton] at h'
        omega)]
    rw [trimSpaceBytes_append_space s hh hl]
  · unfold parseElementValue
    by_cases hsnil : s = []
    · subst hsnil
      rw [if_pos rfl]
    · rw [if_neg hsnil, truncAtNul_eq_self _ hnul, trimSpaceBytes_eq_self s hh hl]

theorem parseImplicitLoop_step (fuel : Nat) (t : DTag) (e : DElem) (rest : List Nat)
    (acc : Dataset) (hg : t.group < 65536) (hel : t.element < 65536)
    (hv : (padEven 0x20 (encodeElementValue e)).length < 4294967296) :
    parseImplicitLoop (fuel + 1) (encodeImplicitElement t e ++ rest) acc =
      parseImplicitLoop fuel rest (AddElement acc t
        ⟨determineVR t, parseElementValue (padEven 0x20 (encodeElementValue e))⟩) := by
  rw [encodeImplicitElement_elemB]
  have heven := padEven_length_even 0x20 (encodeElementValue e)
  simp only [parseImplicitLoop]
  rw [elemB_read_group _ _ _ _ hg, elemB_read_element _ _ _ _ hel,
    elemB_read_length _ _ _ _ hv, elemB_read_value,
    if_neg (by rw [elemB_append_length]; omega),
    if_neg (by rw [elemB_append_length]; omega),
    if_neg (by omega), elemB_drop_all]

theorem parseExplicitLoop_step (fuel : Nat) (t : DTag) (e : DElem) (rest : List Nat)
    (acc : List (DTag × DElem)) (hg : t.group < 65536) (hel : t.element < 65536)
    (hvr2 : e.vr.length = 2)
    (hagree : isLongVRParse e.vr = isLongVREncode e.vr)
    (hv32 : (padEven 0x20 (encodeElementValue e)).length < 4294967296)
    (hv16 : isLongVREncode e.vr = false →
      (padEven 0x20 (encodeElementValue e)).length ≤ 65535) :
    parseExplicitLoop (fuel + 1) (encodeExplicitElement t e ++ rest) acc =
      parseExplicitLoop fuel rest (AddElement acc t
        ⟨e.vr, parseElementValue (padEven 0x20 (encodeElementValue e))⟩) := by
  set vb := padEven 0x20 (encodeElementValue e) with hvbdef
  have heven : vb.length % 2 = 0 := by
    rw [hvbdef]
    exact padEven_length_even 0x20 (encodeElementValue e)
  have hv32' : vb.length < 4294967296 := by
    rw [hvbdef]
    exact hv32
  by_cases hlong : isLongVREncode e.vr = true
  · have henc : encodeExplicitElement t e ++ rest =
        u16le t.group ++ (u16le t.element ++ (e.vr ++ ([0, 0] ++
          (u32le vb.length ++ (vb ++ rest))))) := by
      unfold encodeExplicitElement
      rw [if_pos hlong, hvbdef]
      simp [List.append_assoc]
    have hlen : (encodeExplicitElement t e ++ rest).length =
        12 + vb.length + rest.length := by
      rw [henc]
      simp [u16le, u32le, hvr2]
      omega
    have helemlen : (encodeExplicitElement t e).length = 12 + vb.length := by
      have h' := hlen
      rw [List.length_append] at h'
      omega
    have hgrp : readU16le (encodeExplicitElement t e ++ rest) = t.group := by
      rw [henc]
      exact readU16le_u16le _ _ hg
    have hd2 : (encodeExplicitElement t e ++ rest).drop 2 =
        u16le t.element ++ (e.vr ++ ([0, 0] ++ (u32le vb.length ++ (vb ++ rest)))) := by
      rw [henc]
      exact List.drop_left' (by simp [u16le])
    have helemread : readU16le ((encodeExplicitElement t e ++ rest).drop 2) = t.element := by
      rw [hd2]
      exact readU16le_u16le _ _ hel
    have hd4 : (encodeExplicitElement t e ++ rest).drop 4 =
        e.vr ++ ([0, 0] ++ (u32le vb.length ++ (vb ++ rest))) := by
      rw [show (4 : Nat) = 2 + 2 from rfl, ← List.drop_drop, hd2]
      exact List.drop_left' (by simp [u16le])
    have hvrtake : ((encodeExplicitElement t e ++ rest).drop 4).take 2 = e.vr := by
      rw [hd4]
      exact List.take_left' hvr2
    have hd8 : (encodeExplicitElement t e ++ rest).drop 8 =
        u32le vb.length ++ (vb ++ rest) := by
      rw [show (8 : Nat) = 4 + 4 from rfl, ← List.drop_drop, hd4, ← List.append_assoc]
      exact List.drop_left' (by simp [hvr2])
    have hlength : readU32le ((encodeExplicitElement t e ++ rest).drop 8) = vb.length := by
      rw [hd8]
      exact readU32le_u32le _ _ hv32'
    have hd12 : (encodeExplicitElement t e ++ rest).drop 12 = vb ++ rest := by
      rw [show (12 : Nat) = 8 + 4 from rfl, ← List.drop_drop, hd8]
      exact List.drop_left' (by simp [u32le])
    have hvalue : ((encodeExplicitElement t e ++ rest).drop 12).take vb.length = vb := by
      rw [hd12]
      exact List.take_left' rfl
    have hdropAll : (encodeExplicitElement t e ++ rest).drop (12 + vb.length) = rest :=
      List.drop_left' helemlen
    simp only [parseExplicitLoop]
    rw [hgrp, helemread, hvrtake, hagree, hlong, if_pos rfl,
      if_neg (by rw [hlen]; omega), if_neg (by rw [hlen]; omega), hlength,
      if_neg (by rw [hlen]; omega), hvalue, if_neg (by omega), hdropAll]
  · have hlf : isLongVREncode e.vr = false := by
      revert hlong
      cases isLongVREncode e.vr <;> simp
    have h16 : vb.length ≤ 65535 := by
      rw [hvbdef]
      exact hv16 hlf
    have henc : encodeExplicitElement t e ++ rest =
        u16le t.group ++ (u16le t.element ++ (e.vr ++
          (u16le vb.length ++ (vb ++ rest)))) := by
      unfold encodeExplicitElement
      rw [if_neg hlong, hvbdef]
      rw [if_neg (by
        have := h16
        rw [hvbdef] at this
        omega)]
      simp [List.append_assoc]
    have hlen : (encodeExplicitElement t e ++ rest).length =
        8 + vb.length + rest.length := by
      rw [henc]
      simp [u16le, hvr2]
      omega
    have helemlen : (encodeExplicitElement t e).length = 8 + vb.length := by
      have h' := hlen
      rw [List.length_append] at h'
      omega
    have hgrp : readU16le (encodeExplicitElement t e ++ rest) = t.group := by
      rw [henc]
      exact readU16le_u16le _ _ hg
    have hd2 : (encodeExplicitElement t e ++ rest).drop 2 =
        u16le t.element ++ (e.vr ++ (u16le vb.length ++ (vb ++ rest))) := by
      rw [henc]
      exact List.drop_left' (by simp [u16le])
    have helemread : readU16le ((encodeExplicitElement t e ++ rest).drop 2) = t.element := by
      rw [hd2]
      exact readU16le_u16le _ _ hel
    have hd4 : (encodeExplicitElement t e ++ rest).drop 4 =
        e.vr ++ (u16le vb.length ++ (vb ++ rest)) := by
      rw [show (4 : Nat) = 2 + 2 from rfl, ← List.drop_drop, hd2]
      exact List.drop_left' (by simp [u16le])
    have hvrtake : ((encodeExplicitElement t e ++ rest).drop 4).take 2 = e.vr := by
      rw [hd4]
      exact List.take_left' hvr2
    have hd6 : (encodeExplicitElement t e ++ rest).drop 6 =
        u16le vb.length ++ (vb ++ rest) := by
      rw [show (6 : Nat) = 4 + 2 from rfl, ← List.drop_drop, hd4]
      exact List.drop_left' hvr2
    have hlength : readU16le ((encodeExplicitElement t e ++ rest).drop 6) = vb.length := by
      rw [hd6]
      exact readU16le_u16le _ _ (by omega)
    have hd8 : (encodeExplicitElement t e ++ rest).drop 8 = vb ++ rest := by
      rw [show (8 : Nat) = 6 + 2 from rfl, ← List.drop_drop, hd6]
      exact List.drop_left' (by simp [u16le])
    have hvalue : ((encodeExplicitElement t e ++ rest).drop 8).take vb.length = vb := by
      rw [hd8]
      exact List.take_left' rfl
    have hdropAll : (encodeExplicitElement t e ++ rest).drop (8 + vb.length) = rest :=
      List.drop_left' helemlen
    simp only [parseExplicitLoop]
    rw [hgrp, helemread, hvrtake, hagree, hlf,
      if_neg (by rw [hlen]; omega), if_neg Bool.false_ne_true, hlength,
      if_neg (by rw [hlen]; omega), hvalue, if_neg (by omega), hdropAll]

theorem parseImplicit_roundtrip :
    ∀ (d : List (DTag × DElem)) (fuel : Nat) (acc : List (DTag × DElem)),
      (∀ p ∈ d, p.1.group < 65536 ∧ p.1.element < 65536 ∧
        p.2.vr = determineVR p.1 ∧
        ∃ s, p.2.value = ElemValue.vstr s ∧ (∀ b ∈ s, b ≠ 0) ∧
          (∀ b ∈ s.head?, isSpaceByte b = false) ∧
          (∀ b ∈ s.getLast?, isSpaceByte b = false) ∧ s.length + 1 < 4294967296) →
      List.Pairwise (fun p q => tagLt p.1 q.1 = true) d →
      (∀ q ∈ acc, ∀ p ∈ d, tagLt q.1 p.1 = true) →
      (encodeImplicitVRDataset d).length < fuel →
      parseImplicitLoop fuel (encodeImplicitVRDataset d) acc = acc ++ d := by
  intro d
  induction d with
  | nil =>
      intro fuel acc _ _ _ _
      rw [show encodeImplicitVRDataset [] = [] from rfl, parseImplicitLoop_nil,
        List.append_nil]
  | cons p d' ih =>
      intro fuel acc hw hsort hacc hf
      obtain ⟨t, e⟩ := p
      have hwp := hw (t, e) (List.mem_cons_self _ _)
      dsimp only at hwp
      obtain ⟨hg, hel, hvr, s, hval, hnul, hh, hl, hslen⟩ := hwp
      have hev : encodeElementValue e = trimRightBytes [0] s := by
        simp only [encodeElementValue, hval]
      have htrim : trimRightBytes [0] s = s := by
        apply trimRightBytes_eq_self
        intro b hb hmem
        simp only [List.mem_singleton] at hmem
        exact hnul b (mem_of_mem_getLast hb) hmem
      have hvb : (padEven 0x20 (encodeElementValue e)).length < 4294967296 := by
        rw [hev, htrim]
        have hple := padEven_length_le 0x20 s
        omega
      have hencCons : encodeImplicitVRDataset ((t, e) :: d') =
          encodeImplicitElement t e ++ encodeImplicitVRDataset d' := rfl
      rw [hencCons] at hf ⊢
      cases fuel with
      | zero => exact absurd hf (by omega)
      | succ f =>
          rw [parseImplicitLoop_step f t e _ acc hg hel hvb]
          have hpev : parseElementValue (padEven 0x20 (encodeElementValue e)) =
              ElemValue.vstr s := by
            rw [hev]
            exact parse_padEven_encode s hnul hh hl
          rw [hpev, ← hval, ← hvr,
            show (⟨e.vr, e.value⟩ : DElem) = e from rfl,
            AddElement_append acc t e
              (fun q hq => hacc q hq (t, e) (List.mem_cons_self _ _)),
            ih f (acc ++ [(t, e)])
              (fun q hq => hw q (List.mem_cons_of_mem _ hq))
              hsort.of_cons
              (by
                intro q hq p' hp'
                rcases List.mem_append.mp hq with hq' | hq'
                · exact hacc q hq' p' (List.mem_cons_of_mem _ hp')
                · simp only [List.mem_singleton] at hq'
                  subst hq'
                  exact List.rel_of_pairwise_cons hsort hp')
              (by
                rw [List.length_append, encodeImplicitElement_elemB, elemB_length] at hf
                omega)]
          simp

theorem parseExplicit_roundtrip :
    ∀ (d : List (DTag × DElem)) (fuel : Nat) (acc : List (DTag × DElem)),
      (∀ p ∈ d, p.1.group < 65536 ∧ p.1.element < 65536 ∧
        p.2.vr.length = 2 ∧ isLongVRParse p.2.vr = isLongVREncode p.2.vr ∧
        ∃ s, p.2.value = ElemValue.vstr s ∧ (∀ b ∈ s, b ≠ 0) ∧
          (∀ b ∈ s.head?, isSpaceByte b = false) ∧
          (∀ b ∈ s.getLast?, isSpaceByte b = false) ∧ s.length + 1 < 4294967296 ∧
          (isLongVREncode p.2.vr = false → s.length + 1 ≤ 65535)) →
      List.Pairwise (fun p q => tagLt p.1 q.1 = true) d →
      (∀ q ∈ acc, ∀ p ∈ d, tagLt q.1 p.1 = true) →
      (EncodeDataset d).length < fuel →
      parseExplicitLoop fuel (EncodeDataset d) acc = acc ++ d := by
  intro d
  induction d with
  | nil =>
      intro fuel acc _ _ _ _
      rw [show EncodeDataset [] = [] from rfl, parseExplicitLoop_nil, List.append_nil]
  | cons p d' ih =>
      intro fuel acc hw hsort hacc hf
      obtain ⟨t, e⟩ := p
      have hwp := hw (t, e) (List.mem_cons_self _ _)
      dsimp only at hwp
      obtain ⟨hg, hel, hvr2, hagree, s, hval, hnul, hh, hl, hslen, h16⟩ := hwp
      have hev : encodeElementValue e = trimRightBytes [0] s := by
        simp only [encodeElementValue, hval]
      have htrim : trimRightBytes [0] s = s := by
        apply trimRightBytes_eq_self
        intro b hb hmem
        simp only [List.mem_singleton] at hmem
        exact hnul b (mem_of_mem_getLast hb) hmem
      have hvb : (padEven 0x20 (encodeElementValue e)).length < 4294967296 := by
        rw [hev, htrim]
        have hple := padEven_length_le 0x20 s
        omega
      have hvb16 : isLongVREncode e.vr = false →
          (padEven 0x20 (encodeElementValue e)).length ≤ 65535 := by
        intro hlf
        rw [hev, htrim]
        have hple := padEven_length_le 0x20 s
        have h16' := h16 hlf
        omega
      have hencCons : EncodeDataset ((t, e) :: d') =
          encodeExplicitElement t e ++ EncodeDataset d' := rfl
      rw [hencCons] at hf ⊢
      have helemge : 8 ≤ (encodeExplicitElement t e).length := by
        unfold encodeExplicitElement
        split
        · simp [u16le, u32le, hvr2]
          omega
        · simp [u16le, hvr2]
          omega
      cases fuel with
      | zero => exact absurd hf (by omega)
      | succ f =>
          rw [parseExplicitLoop_step f t e _ acc hg hel hvr2 hagree hvb hvb16]
          have hpev : parseElementValue (padEven 0x20 (encodeElementValue e)) =
              ElemValue.vstr s := by
            rw [hev]
            exact parse_padEven_encode s hnul hh hl
          rw [hpev, ← hval,
            show (⟨e.vr, e.value⟩ : DElem) = e from rfl,
            AddElement_append acc t e
              (fun q hq => hacc q hq (t, e) (List.mem_cons_self _ _)),
            ih f (acc ++ [(t, e)])
              (fun q hq => hw q (List.mem_cons_of_mem _ hq))
              hsort.of_cons
              (by
                intro q hq p' hp'
                rcases List.mem_append.mp hq with hq' | hq'
                · exact hacc q hq' p' (List.mem_cons_of_mem _ hp')
                · simp only [List.mem_singleton] at hq'
                  subst hq'
                  exact List.rel_of_pairwise_cons hsort hp')
              (by
                rw [List.length_append] at hf
                omega)]
          simp

/-- C6 (counterexample): the dataset codec does not round-trip every
well-formed dataset: a CS element whose string value ends in a space
(legal DICOM padding) is encoded as-is but `parseElementValue` trims
whitespace, so the parsed dataset differs from the original. -/
theorem claim_C6_counterexample :
    ParseDatasetWithTransferSyntax
      (EncodeDatasetWithTransferSyntax
        [(⟨0x0008, 0x0052⟩, ⟨bstr "CS", ElemValue.vstr (bstr "STUDY ")⟩)]
        ImplicitVRLittleEndian)
      ImplicitVRLittleEndian ≠
      [(⟨0x0008, 0x0052⟩, ⟨bstr "CS", ElemValue.vstr (bstr "STUDY ")⟩)] := by
  decide

/-- C6 (amended): `parse(encode(D, T), T) = D` for both supported transfer
syntaxes when every element value is a string with no NUL bytes that
neither starts nor ends with whitespace and is shorter than the length
field can carry, tags are strictly increasing and fit in 16 bits, and the
VRs are consistent: under Implicit VR the element's VR equals the
dictionary VR (the parser reassigns it), and under Explicit VR the VR is
two bytes and is classified the same way by the encoder's and the
parser's long-VR sets (SV and UV are classified differently). -/
theorem claim_C6_amended (d : List (DTag × DElem)) (tsuid : List Nat)
    (hT : tsuid = ImplicitVRLittleEndian ∨ tsuid = ExplicitVRLittleEndian)
    (hsort : List.Pairwise (fun p q => tagLt p.1 q.1 = true) d)
    (hwI : tsuid = ImplicitVRLittleEndian → ∀ p ∈ d,
      p.1.group < 65536 ∧ p.1.element < 65536 ∧ p.2.vr = determineVR p.1 ∧
      ∃ s, p.2.value = ElemValue.vstr s ∧ (∀ b ∈ s, b ≠ 0) ∧
        (∀ b ∈ s.head?, isSpaceByte b = false) ∧
        (∀ b ∈ s.getLast?, isSpaceByte b = false) ∧ s.length + 1 < 4294967296)
    (hwE : tsuid = ExplicitVRLittleEndian → ∀ p ∈ d,
      p.1.group < 65536 ∧ p.1.element < 65536 ∧ p.2.vr.length = 2 ∧
      isLongVRParse p.2.vr = isLongVREncode p.2.vr ∧
      ∃ s, p.2.value = ElemValue.vstr s ∧ (∀ b ∈ s, b ≠ 0) ∧
        (∀ b ∈ s.head?, isSpaceByte b = false) ∧
        (∀ b ∈ s.getLast?, isSpaceByte b = false) ∧ s.length + 1 < 4294967296 ∧
        (isLongVREncode p.2.vr = false → s.length + 1 ≤ 65535)) :
    ParseDatasetWithTransferSyntax (EncodeDatasetWithTransferSyntax d tsuid) tsuid = d := by
  rcases hT with rfl | rfl
  · rw [show EncodeDatasetWithTransferSyntax d ImplicitVRLittleEndian =
        encodeImplicitVRDataset d from by
      unfold EncodeDatasetWithTransferSyntax
      rw [if_pos rfl]]
    rw [show ParseDatasetWithTransferSyntax (encodeImplicitVRDataset d)
        ImplicitVRLittleEndian = parseImplicitVRDataset (encodeImplicitVRDataset d) from by
      unfold ParseDatasetWithTransferSyntax
      rw [if_pos rfl]]
    unfold parseImplicitVRDataset
    have h := parseImplicit_roundtrip d ((encodeImplicitVRDataset d).length + 1) []
      (hwI rfl) hsort (fun q hq => absurd hq (List.not_mem_nil q)) (by omega)
    simpa using h
  · rw [show EncodeDatasetWithTransferSyntax d ExplicitVRLittleEndian =
        EncodeDataset d from by
      unfold EncodeDatasetWithTransferSyntax
      rw [if_neg (by decide)]]
    rw [show ParseDatasetWithTransferSyntax (EncodeDataset d) ExplicitVRLittleEndian =
        ParseDataset (EncodeDataset d) from by
      unfold ParseDatasetWithTransferSyntax
      rw [if_neg (by decide)]]
    unfold ParseDataset
    have h := parseExplicit_roundtrip d ((EncodeDataset d).length + 1) []
      (hwE rfl) hsort (fun q hq => absurd hq (List.not_mem_nil q)) (by omega)
    simpa using h

theorem claim_C6_amended_witness :
    ParseDatasetWithTransferSyntax
      (EncodeDatasetWithTransferSyntax
        [(⟨0x0008, 0x0052⟩, ⟨bstr "CS", ElemValue.vstr (bstr "STUDY")⟩)]
        ImplicitVRLittleEndian)
      ImplicitVRLittleEndian =
      [(⟨0x0008, 0x0052⟩, ⟨bstr "CS", ElemValue.vstr (bstr "STUDY")⟩)] :=
  claim_C6_amended _ _ (Or.inl rfl) (by simp)
    (fun _ p hp => by
      simp only [List.mem_singleton] at hp
      subst hp
      exact ⟨by decide, by decide, by decide, bstr "STUDY", rfl, by decide, by decide,
        by decide, by decide⟩)
    (fun hE => absurd hE (by decide))

end Dicomnet
